import Mathlib

/-!
Shallow embedding of the Eurovision vote-preprocessing pipelines:
variant `V1` embeds `eurovision_preprocessor.py`, variant `V2` embeds
`eurovision_preprocessor2.py`.  Pandas numeric columns are modelled by an
extended number type `EN` (rational, NaN, signed infinity); dataframes by
lists of records; merge/groupby/aggregate operations by explicit list
functions mirroring the pandas calls line by line.
-/

set_option allowUnsafeReducibility true
attribute [semireducible] Rat.add Rat.mul Rat.inv

/-- IEEE-style extended number as held by a pandas float column:
NaN (also modelling a missing value), signed infinity, or a rational. -/
inductive EN : Type
  | nan : EN
  | inf : Bool → EN
  | num : ℚ → EN
deriving DecidableEq

namespace EN

/-- Is this value NaN? -/
def isNan : EN → Bool
  | nan => true
  | _ => false

/-- Is this value an infinity? -/
def isInf : EN → Bool
  | inf _ => true
  | _ => false

/-- Is this value an ordinary (finite) number? -/
def isNum : EN → Bool
  | num _ => true
  | _ => false

/-- Rational content, with NaN and infinity collapsed to zero.  Used only
to express sums over columns known (or filtered) to be finite. -/
def q0 : EN → ℚ
  | num q => q
  | _ => 0

/-- IEEE addition. -/
def add : EN → EN → EN
  | nan, _ => nan
  | _, nan => nan
  | inf p, inf q => if p = q then inf p else nan
  | inf p, num _ => inf p
  | num _, inf p => inf p
  | num a, num b => num (a + b)

/-- IEEE multiplication. -/
def mul : EN → EN → EN
  | nan, _ => nan
  | _, nan => nan
  | inf p, inf q => inf (p = q)
  | inf p, num a => if a = 0 then nan else inf (p = decide (0 < a))
  | num a, inf p => if a = 0 then nan else inf (p = decide (0 < a))
  | num a, num b => num (a * b)

/-- IEEE division, as produced by a pandas `/` on float columns: division
by zero yields a signed infinity (NaN for 0/0), never an exception. -/
def div : EN → EN → EN
  | nan, _ => nan
  | _, nan => nan
  | inf _, inf _ => nan
  | inf p, num a => if a = 0 then inf p else inf (p = decide (0 < a))
  | num _, inf _ => num 0
  | num a, num b =>
      if b = 0 then (if a = 0 then nan else inf (decide (0 < a)))
      else num (a / b)

/-- Float comparison `x >= c`; false on NaN, as in pandas. -/
def geQ (x : EN) (c : ℚ) : Bool :=
  match x with
  | num a => decide (c ≤ a)
  | inf p => p
  | nan => false

/-- Float comparison `x == 0`; false on NaN and on infinities. -/
def isZero : EN → Bool
  | num a => a == 0
  | _ => false

end EN

/-- `drop_duplicates` keeping the first occurrence, as pandas does: keep
the head and drop its later duplicates from the deduplicated tail. -/
def dedupF {α : Type} [DecidableEq α] : List α → List α
  | [] => []
  | a :: l => a :: (dedupF l).filter (fun b => b != a)

/-- Lookup in the dict built by `dict(zip(keys, values))`: on duplicate
keys the last pair wins. -/
def lastFind {α β : Type} [BEq α] (l : List (α × β)) (k : α) : Option β :=
  ((l.filter (fun p => p.1 == k)).getLast?).map Prod.snd

/-- Sum of a float column as pandas `groupby(...).sum()` computes it:
NaN entries are skipped, an empty or all-NaN column sums to 0. -/
def gsum (l : List EN) : EN :=
  (l.filter (fun x => !x.isNan)).foldr EN.add (EN.num 0)

/-- Rational sum of the finite entries of a column (NaN counts as 0);
agrees with `gsum` on infinity-free columns. -/
def qsum (l : List EN) : ℚ := (l.map EN.q0).sum

/-- Substring test helpers for the round normalization. -/
def startsWithL : List Char → List Char → Bool
  | [], _ => true
  | _ :: _, [] => false
  | a :: as, b :: bs => a == b && startsWithL as bs

/-- Does `pat` occur as a contiguous substring? -/
def hasSubL (pat : List Char) : List Char → Bool
  | [] => startsWithL pat []
  | c :: rest => startsWithL pat (c :: rest) || hasSubL pat rest

/-- Round normalization of both variants:
`'final' if 'final' in x.lower() else 'semi-final'` (the lowercasing is
spelled out character-wise, which is what `str.lower` does). -/
def normRound (r : String) : String :=
  if hasSubL "final".toList (r.data.map Char.toLower) then "final" else "semi-final"

/-- A row of `votes.csv` (exactly the columns the code reads). -/
structure Vote where
  year : Int
  round : String
  from_country_id : String
  to_country_id : String
  to_country : String
  points_sf : EN
  points_final : EN
  total_points : EN
deriving DecidableEq

/-- A row of `contestants.csv` (the columns the code reads). -/
structure Contestant where
  year : Int
  to_country_id : String
  to_country : String
deriving DecidableEq

/-- A row of `hofstede_dimensions.csv` (variant V2 only): a country id
plus its cultural-dimension payload. -/
structure Cultural where
  country_id : String
  dims : List EN
deriving DecidableEq

/-- A row of `merged_df`: a vote joined with its contestant row; the
`to_country` columns of the two inputs get the pandas `_x`/`_y` suffixes,
and `total_points_overall` is the row-wise round-specific points value. -/
structure MRow where
  year : Int
  round : String
  from_country_id : String
  to_country_id : String
  to_country_x : String
  to_country_y : Option String
  points_sf : EN
  points_final : EN
  total_points : EN
  total_points_overall : EN
deriving DecidableEq

/-- A row of `final_df` after the column selection and rename: note that
the code renames the input `total_points` to `points_given` and
`total_points_overall` to `total_points`. -/
structure FRow where
  year : Int
  round : String
  from_country : String
  to_country : String
  to_country_name : Option String
  points_given : EN
  total_points : EN
  to_country_participation : EN
  weighted_points : Option EN
deriving DecidableEq

/-- A row of an emitted edge list. -/
structure Edge where
  from_country : String
  to_country : String
  weighted_points : EN
deriving DecidableEq

/-- A node-list row of variant V1: `country_id` is the (grouped)
`to_country_x` value, `country_name` the joined contestant name. -/
structure NodeV1 where
  country_id : String
  country_name : String
  count : Nat
deriving DecidableEq

/-- A node-list row of variant V2: grouped by `to_country_id`, the name
taken as the first seen contestant name (possibly missing), then left
joined with the cultural dimensions. -/
structure NodeV2 where
  country_id : String
  country_name : Option String
  count : Nat
  dims : Option (List EN)
deriving DecidableEq

/-- The configuration surfaced by the UI shell. -/
structure Config where
  weighting_method : String
  min_participations : Nat
  selected_countries : List String
  top3_only : Bool
  final_only : Bool

/-- Build one merged row from a vote and an optional contestant name. -/
def mkMRow (v : Vote) (y : Option String) : MRow :=
  { year := v.year
    round := v.round
    from_country_id := v.from_country_id
    to_country_id := v.to_country_id
    to_country_x := v.to_country
    to_country_y := y
    points_sf := v.points_sf
    points_final := v.points_final
    total_points := v.total_points
    total_points_overall := if v.round == "final" then v.points_final else v.points_sf }

/-- `pd.merge(votes_df, contestants_df, how='left', on=['year','to_country_id'])`
followed by the row-wise `total_points_overall` computation: each vote row
is kept once per matching contestant row, or once with a missing name when
no contestant matches. -/
def mergeVC (votes : List Vote) (cont : List Contestant) : List MRow :=
  votes.flatMap (fun v =>
    match cont.filter (fun c => c.year == v.year && c.to_country_id == v.to_country_id) with
    | [] => [mkMRow v none]
    | cs => cs.map (fun c => mkMRow v (some c.to_country)))

/-- The shared `calculate_weighted_votes`: identical in both variants;
an unrecognized method falls through every branch and returns the input
unchanged. -/
def calculate_weighted_votes (l : List FRow) (weighting_method : String) : List FRow :=
  if weighting_method == "No weights" then
    l.map (fun r => { r with weighted_points := some r.points_given })
  else if weighting_method == "Divide by participation count" then
    l.map (fun r => { r with weighted_points := some (r.points_given.div r.to_country_participation) })
  else if weighting_method == "Divide by total points" then
    l.map (fun r => { r with weighted_points := some (r.points_given.div r.total_points) })
  else if weighting_method == "Divide by both" then
    l.map (fun r => { r with weighted_points := some (r.points_given.div (r.total_points.mul r.to_country_participation)) })
  else l

/-- The shared row filter of `filter_countries`: keep rows whose both
endpoints are among the selected ids. -/
def filterByIds (l : List FRow) (ids : List String) : List FRow :=
  l.filter (fun r => ids.contains r.to_country && ids.contains r.from_country)

/-- The weighted-points column entry of a row (NaN when absent). -/
def wpOf (r : FRow) : EN := r.weighted_points.getD EN.nan

/-- `groupby(['from_country','to_country'], as_index=False)['weighted_points'].sum()`:
one edge per distinct ordered pair, summing the column with NaN skipped. -/
def groupEdges (l : List FRow) : List Edge :=
  (dedupF (l.map (fun r => (r.from_country, r.to_country)))).map
    (fun k => { from_country := k.1
                to_country := k.2
                weighted_points :=
                  gsum ((l.filter (fun r => r.from_country == k.1 && r.to_country == k.2)).map wpOf) })

namespace V1

/-- The in-place round normalization of `votes_df`. -/
def votesNorm (votes : List Vote) : List Vote :=
  votes.map (fun v => { v with round := normRound v.round })

/-- `merged_df` of variant V1. -/
def merged (cont : List Contestant) (votes : List Vote) : List MRow :=
  mergeVC (votesNorm votes) cont

/-- The column selection of `unique_years_df` in variant V1. -/
structure URow where
  year : Int
  round : String
  to_country_x : String
  to_country_y : Option String
deriving DecidableEq

/-- Project a merged row onto the `unique_years_df` columns. -/
def toURow (m : MRow) : URow :=
  { year := m.year, round := m.round
    to_country_x := m.to_country_x, to_country_y := m.to_country_y }

/-- `unique_years_df = merged_df[[...]].drop_duplicates()`. -/
def uniqueYears (cont : List Contestant) (votes : List Vote) : List URow :=
  dedupF ((merged cont votes).map toURow)

/-- `country_counts_df`: group the unique rows by (to_country_x,
to_country_y) — pandas drops groups whose key contains NaN — and take
group sizes. -/
def countryCounts (cont : List Contestant) (votes : List Vote) : List NodeV1 :=
  let u := uniqueYears cont votes
  (dedupF (u.filterMap (fun t => t.to_country_y.map (fun y => (t.to_country_x, y))))).map
    (fun k => { country_id := k.1
                country_name := k.2
                count := (u.filter (fun t => t.to_country_x == k.1 && t.to_country_y == some k.2)).length })

/-- The `participation_map` lookup applied to a `to_country` value:
a dict built by `set_index('country_id')['count'].to_dict()` (last row
wins on duplicate ids); a missing key maps to NaN. -/
def participationOf (cont : List Contestant) (votes : List Vote) (c : String) : EN :=
  match lastFind ((countryCounts cont votes).map (fun r => (r.country_id, r.count))) c with
  | some n => EN.num (n : ℚ)
  | none => EN.nan

/-- Project a merged row onto the selected/renamed `final_df` columns. -/
def toFRow (part : String → EN) (m : MRow) : FRow :=
  { year := m.year
    round := m.round
    from_country := m.from_country_id
    to_country := m.to_country_id
    to_country_name := m.to_country_y
    points_given := m.total_points
    total_points := m.total_points_overall
    to_country_participation := part m.to_country_id
    weighted_points := none }

/-- `final_df` of variant V1, with the participation column attached. -/
def finalDf (cont : List Contestant) (votes : List Vote) : List FRow :=
  (merged cont votes).map (toFRow (participationOf cont votes))

/-- `country_counts_df` after the min-participation filter in `main`. -/
def nccMin (cont : List Contestant) (votes : List Vote) (cfg : Config) : List NodeV1 :=
  (countryCounts cont votes).filter (fun r => cfg.min_participations ≤ r.count)

/-- `final_df` after the two `isin` filters against the min-filtered
country ids. -/
def fMin (cont : List Contestant) (votes : List Vote) (cfg : Config) : List FRow :=
  ((finalDf cont votes).filter (fun r =>
      ((nccMin cont votes cfg).map NodeV1.country_id).contains r.to_country)).filter
    (fun r => ((nccMin cont votes cfg).map NodeV1.country_id).contains r.from_country)

/-- The selected country ids of `filter_countries`: map each selected
name through the name-to-id dict (unknown names silently skipped). -/
def selectedIds (nodes : List NodeV1) (selected : List String) : List String :=
  selected.filterMap (fun n => lastFind (nodes.map (fun r => (r.country_name, r.country_id))) n)

/-- `final_df` after `filter_countries`. -/
def fSel (cont : List Contestant) (votes : List Vote) (cfg : Config) : List FRow :=
  filterByIds (fMin cont votes cfg) (selectedIds (nccMin cont votes cfg) cfg.selected_countries)

/-- The final node list: the min-filtered counts restricted to selected
names (displayed, and saved on the button). -/
def nodes (cont : List Contestant) (votes : List Vote) (cfg : Config) : List NodeV1 :=
  (nccMin cont votes cfg).filter (fun r => cfg.selected_countries.contains r.country_name)

/-- `final_df` after `calculate_weighted_votes`. -/
def fW (cont : List Contestant) (votes : List Vote) (cfg : Config) : List FRow :=
  calculate_weighted_votes (fSel cont votes cfg) cfg.weighting_method

/-- `df_filtered`: self-loops removed. -/
def dfFiltered (cont : List Contestant) (votes : List Vote) (cfg : Config) : List FRow :=
  (fW cont votes cfg).filter (fun r => r.from_country != r.to_country)

/-- `eurovision_votes`: the aggregated edge list (displayed and saved). -/
def edges (cont : List Contestant) (votes : List Vote) (cfg : Config) : List Edge :=
  groupEdges (dfFiltered cont votes cfg)

/-- The full emitted output of variant V1: edge list and node list. -/
def mainOut (cont : List Contestant) (votes : List Vote) (cfg : Config) :
    List Edge × List NodeV1 :=
  (edges cont votes cfg, nodes cont votes cfg)

end V1

namespace V2

/-- The in-place round normalization of `votes_df` (same line as V1). -/
def votesNorm (votes : List Vote) : List Vote :=
  votes.map (fun v => { v with round := normRound v.round })

/-- The optional TOP-3 filter: keep votes with `total_points >= 8`. -/
def votesTop3 (votes : List Vote) (cfg : Config) : List Vote :=
  if cfg.top3_only then votes.filter (fun v => v.total_points.geQ 8) else votes

/-- The optional FINAL-only filter: keep `round == 'final'` votes. -/
def votesFinal (votes : List Vote) (cfg : Config) : List Vote :=
  if cfg.final_only then votes.filter (fun v => v.round == "final") else votes

/-- Round normalization followed by the optional TOP-3 and FINAL-only
pre-aggregation filters of variant V2. -/
def votesFiltered (votes : List Vote) (cfg : Config) : List Vote :=
  votesFinal (votesTop3 (votesNorm votes) cfg) cfg

/-- `merged_df` of variant V2. -/
def merged (cont : List Contestant) (votes : List Vote) (cfg : Config) : List MRow :=
  mergeVC (votesFiltered votes cfg) cont

/-- The column selection of `unique_years_df` in variant V2 (it also
carries `to_country_id`). -/
structure URow2 where
  year : Int
  round : String
  to_country_x : String
  to_country_y : Option String
  to_country_id : String
deriving DecidableEq

/-- Project a merged row onto the V2 `unique_years_df` columns. -/
def toURow2 (m : MRow) : URow2 :=
  { year := m.year, round := m.round, to_country_x := m.to_country_x
    to_country_y := m.to_country_y, to_country_id := m.to_country_id }

/-- `unique_years_df` of variant V2. -/
def uniqueYears (cont : List Contestant) (votes : List Vote) (cfg : Config) : List URow2 :=
  dedupF ((merged cont votes cfg).map toURow2)

/-- `country_counts_df` before the cultural join: group by
`to_country_id`, take the name via the pandas `first` aggregator — the
first non-missing name of the group, missing only when every row's name
is missing — and the group size. -/
def countryCounts (cont : List Contestant) (votes : List Vote) (cfg : Config) : List NodeV2 :=
  let u := uniqueYears cont votes cfg
  (dedupF (u.map URow2.to_country_id)).map
    (fun i =>
      let g := u.filter (fun t => t.to_country_id == i)
      { country_id := i
        country_name := (g.filterMap URow2.to_country_y).head?
        count := g.length
        dims := none })

/-- The left join of one aggregated row with the cultural dimensions:
no match keeps the row with missing dims; each match produces a row. -/
def culturalJoin (cu : List Cultural) (r : NodeV2) : List NodeV2 :=
  match cu.filter (fun c => c.country_id == r.country_id) with
  | [] => [r]
  | cs => cs.map (fun c => { r with dims := some c.dims })

/-- `country_counts_df` after the left join with the cultural dimensions. -/
def nodesPre (cont : List Contestant) (votes : List Vote) (cu : List Cultural)
    (cfg : Config) : List NodeV2 :=
  (countryCounts cont votes cfg).flatMap (culturalJoin cu)

/-- The V2 `participation_map` lookup (built after the cultural join). -/
def participationOf (cont : List Contestant) (votes : List Vote) (cu : List Cultural)
    (cfg : Config) (c : String) : EN :=
  match lastFind ((nodesPre cont votes cu cfg).map (fun r => (r.country_id, r.count))) c with
  | some n => EN.num (n : ℚ)
  | none => EN.nan

/-- Project a merged row onto the V2 `final_df` columns (V2 does not keep
a name column; the embedding carries the joined name unused). -/
def toFRow (part : String → EN) (m : MRow) : FRow :=
  { year := m.year
    round := m.round
    from_country := m.from_country_id
    to_country := m.to_country_id
    to_country_name := m.to_country_y
    points_given := m.total_points
    total_points := m.total_points_overall
    to_country_participation := part m.to_country_id
    weighted_points := none }

/-- `final_df` of variant V2. -/
def finalDf (cont : List Contestant) (votes : List Vote) (cu : List Cultural)
    (cfg : Config) : List FRow :=
  (merged cont votes cfg).map (toFRow (participationOf cont votes cu cfg))

/-- The node list after the min-participation filter in `main`. -/
def nccMin (cont : List Contestant) (votes : List Vote) (cu : List Cultural)
    (cfg : Config) : List NodeV2 :=
  (nodesPre cont votes cu cfg).filter (fun r => cfg.min_participations ≤ r.count)

/-- `final_df` after the two `isin` filters against the min-filtered ids. -/
def fMin (cont : List Contestant) (votes : List Vote) (cu : List Cultural)
    (cfg : Config) : List FRow :=
  ((finalDf cont votes cu cfg).filter (fun r =>
      ((nccMin cont votes cu cfg).map NodeV2.country_id).contains r.to_country)).filter
    (fun r => ((nccMin cont votes cu cfg).map NodeV2.country_id).contains r.from_country)

/-- The selected country ids: names mapped through the name-to-id dict;
a row with a missing name contributes a key no string matches. -/
def selectedIds (nodes : List NodeV2) (selected : List String) : List String :=
  selected.filterMap (fun n =>
    lastFind (nodes.map (fun r => (r.country_name, r.country_id))) (some n))

/-- `final_df` after `filter_countries`. -/
def fSel (cont : List Contestant) (votes : List Vote) (cu : List Cultural)
    (cfg : Config) : List FRow :=
  filterByIds (fMin cont votes cu cfg)
    (selectedIds (nccMin cont votes cu cfg) cfg.selected_countries)

/-- The final node list (displayed and downloaded): min-filtered rows
whose (non-missing) name is selected. -/
def nodes (cont : List Contestant) (votes : List Vote) (cu : List Cultural)
    (cfg : Config) : List NodeV2 :=
  (nccMin cont votes cu cfg).filter (fun r =>
    match r.country_name with
    | some n => cfg.selected_countries.contains n
    | none => false)

/-- `final_df` after `calculate_weighted_votes`. -/
def fW (cont : List Contestant) (votes : List Vote) (cu : List Cultural)
    (cfg : Config) : List FRow :=
  calculate_weighted_votes (fSel cont votes cu cfg) cfg.weighting_method

/-- `df_filtered`: self-loops removed. -/
def dfFiltered (cont : List Contestant) (votes : List Vote) (cu : List Cultural)
    (cfg : Config) : List FRow :=
  (fW cont votes cu cfg).filter (fun r => r.from_country != r.to_country)

/-- The displayed `eurovision_votes`: aggregated, then zero-weight edges
dropped. -/
def edgesDisp (cont : List Contestant) (votes : List Vote) (cu : List Cultural)
    (cfg : Config) : List Edge :=
  (groupEdges (dfFiltered cont votes cu cfg)).filter (fun e => !(e.weighted_points.isZero))

/-- The downloadable edge CSV: variant V2 exports
`final_df[['from_country','to_country','weighted_points']]` — the
weighted rows before self-loop removal and before aggregation. -/
def downloadEdges (cont : List Contestant) (votes : List Vote) (cu : List Cultural)
    (cfg : Config) : List Edge :=
  (fW cont votes cu cfg).map (fun r =>
    { from_country := r.from_country, to_country := r.to_country, weighted_points := wpOf r })

/-- The full emitted output of variant V2: displayed edge list, node
list, and the downloadable edge rows. -/
def mainOut (cont : List Contestant) (votes : List Vote) (cu : List Cultural)
    (cfg : Config) : List Edge × List NodeV2 × List Edge :=
  (edgesDisp cont votes cu cfg, nodes cont votes cu cfg, downloadEdges cont votes cu cfg)

end V2

/-! ### List helper lemmas -/

theorem mem_dedupF {α : Type} [DecidableEq α] {a : α} : ∀ {l : List α}, a ∈ dedupF l ↔ a ∈ l := by
  intro l
  induction l with
  | nil => simp [dedupF]
  | cons b t ih =>
    simp only [dedupF, List.mem_cons, List.mem_filter, bne_iff_ne]
    by_cases hab : a = b
    · simp [hab]
    · simp [hab, ih]

theorem nodup_dedupF {α : Type} [DecidableEq α] : ∀ (l : List α), (dedupF l).Nodup := by
  intro l
  induction l with
  | nil => simp [dedupF]
  | cons b t ih =>
    rw [dedupF]
    refine List.nodup_cons.mpr ⟨?_, ih.filter _⟩
    intro hmem
    rw [List.mem_filter] at hmem
    simp at hmem

theorem head?_dedupF {α : Type} [DecidableEq α] (l : List α) : (dedupF l).head? = l.head? := by
  cases l with
  | nil => simp [dedupF]
  | cons a t => rw [dedupF]; rfl

/-- Two successive filters commute. -/
theorem filter_comm2 {α : Type} (p q : α → Bool) (l : List α) :
    (l.filter p).filter q = (l.filter q).filter p := by
  rw [List.filter_filter, List.filter_filter]
  exact List.filter_congr (fun b _ => Bool.and_comm _ _)

/-- `filter` commutes with `map` (pulling the predicate through the map). -/
theorem filter_map_comm {α β : Type} (f : α → β) (p : β → Bool) (l : List α) :
    (l.map f).filter p = (l.filter (fun a => p (f a))).map f := by
  rw [List.filter_map]; rfl

theorem dedupF_filter {α : Type} [DecidableEq α] (p : α → Bool) :
    ∀ (l : List α), dedupF (l.filter p) = (dedupF l).filter p := by
  intro l
  induction l with
  | nil => simp [dedupF]
  | cons a t ih =>
    by_cases hpa : p a = true
    · rw [List.filter_cons_of_pos hpa, dedupF, dedupF, List.filter_cons_of_pos hpa, ih,
        filter_comm2]
    · rw [List.filter_cons_of_neg hpa, dedupF, List.filter_cons_of_neg hpa, ih, filter_comm2]
      symm
      apply List.filter_eq_self.mpr
      intro b hb
      rw [List.mem_filter] at hb
      rw [bne_iff_ne]
      intro hba
      rw [hba] at hb
      exact hpa hb.2

/-- The length of a filtered list is monotone in the predicate. -/
theorem length_filter_mono {α : Type} {p q : α → Bool} :
    ∀ (l : List α), (∀ a ∈ l, p a = true → q a = true) →
      (l.filter p).length ≤ (l.filter q).length := by
  intro l
  induction l with
  | nil => intro _; simp
  | cons a t ih =>
    intro h
    have ht := ih (fun b hb => h b (List.mem_cons_of_mem a hb))
    by_cases hpa : p a = true
    · rw [List.filter_cons_of_pos hpa, List.filter_cons_of_pos (h a (List.mem_cons_self a t) hpa)]
      simpa using ht
    · rw [List.filter_cons_of_neg hpa]
      by_cases hqa : q a = true
      · rw [List.filter_cons_of_pos hqa]
        exact Nat.le_succ_of_le ht
      · rw [List.filter_cons_of_neg hqa]
        exact ht

/-- If the keys of a list are distinct, at most one element matches a
given key. -/
theorem length_filter_key_le_one {α κ : Type} [DecidableEq κ] (f : α → κ) (c : κ) :
    ∀ (l : List α), (l.map f).Nodup → (l.filter (fun a => f a == c)).length ≤ 1 := by
  intro l
  induction l with
  | nil => intro _; simp
  | cons a t ih =>
    intro h
    rw [List.map_cons, List.nodup_cons] at h
    rw [List.filter_cons]
    by_cases hfa : (f a == c) = true
    · rw [if_pos hfa]
      have : t.filter (fun b => f b == c) = [] := by
        rw [List.filter_eq_nil_iff]
        intro b hb hfb
        rw [beq_iff_eq] at hfa hfb
        apply h.1
        rw [hfa, ← hfb]
        exact List.mem_map_of_mem f hb
      rw [this]
      simp
    · rw [if_neg hfa]
      exact ih h.2

/-- A `flatMap` whose function is guarded by a predicate on the element
equals the `flatMap` over the filtered list. -/
theorem flatMap_ite {α β : Type} (p : α → Bool) (g : α → List β) :
    ∀ (l : List α), (l.flatMap (fun a => if p a then g a else [])) = (l.filter p).flatMap g := by
  intro l
  induction l with
  | nil => rfl
  | cons a t ih =>
    by_cases hpa : p a = true
    · rw [List.flatMap_cons, List.filter_cons_of_pos hpa, List.flatMap_cons, if_pos hpa, ih]
    · rw [List.flatMap_cons, List.filter_cons_of_neg hpa, if_neg hpa, List.nil_append, ih]

/-- A successful `lastFind` comes from a pair of the list. -/
theorem lastFind_mem {α β : Type} [BEq α] {l : List (α × β)} {k : α} {b : β}
    (h : lastFind l k = some b) : ∃ p ∈ l, p.1 == k ∧ p.2 = b := by
  unfold lastFind at h
  cases hg : (l.filter (fun p => p.1 == k)).getLast? with
  | none => rw [hg] at h; exact absurd h (by simp)
  | some q =>
    rw [hg] at h
    have hq : q ∈ l.filter (fun p => p.1 == k) := List.mem_of_mem_getLast? hg
    rw [List.mem_filter] at hq
    refine ⟨q, hq.1, hq.2, ?_⟩
    simpa using h

/-! ### EN lemmas -/

/-- Division by a zero or missing divisor never yields a finite number. -/
theorem EN.div_zero_or_nan (x d : EN) (h : d = EN.num 0 ∨ d = EN.nan) :
    (x.div d).isNum = false := by
  rcases h with h | h <;> subst h <;> cases x <;>
    simp only [EN.div, EN.isNum] <;> split_ifs <;> rfl

theorem qsum_nil : qsum [] = 0 := rfl

theorem qsum_cons (x : EN) (xs : List EN) : qsum (x :: xs) = x.q0 + qsum xs := by
  simp [qsum]

/-- On an infinity-free column the pandas sum is the finite rational sum. -/
theorem gsum_eq_num : ∀ (xs : List EN), (∀ x ∈ xs, x.isInf = false) →
    gsum xs = EN.num (qsum xs) := by
  intro xs
  induction xs with
  | nil => intro _; rfl
  | cons x t ih =>
    intro h
    have ht := ih (fun y hy => h y (List.mem_cons_of_mem x hy))
    cases x with
    | nan =>
      have hg : gsum (EN.nan :: t) = gsum t := by
        unfold gsum
        rw [List.filter_cons_of_neg (by decide)]
      rw [hg, ht, qsum_cons]
      simp [EN.q0]
    | inf p => exact absurd (h _ (List.mem_cons_self _ t)) (by simp [EN.isInf])
    | num q =>
      have hq : (fun x => !EN.isNan x) (EN.num q) = true := rfl
      have hg : gsum (EN.num q :: t) = EN.add (EN.num q) (gsum t) := by
        unfold gsum
        rw [show List.filter (fun x => !EN.isNan x) (EN.num q :: t)
              = EN.num q :: List.filter (fun x => !EN.isNan x) t from
            List.filter_cons_of_pos hq]
        rfl
      rw [hg, ht, qsum_cons]
      simp [EN.add, EN.q0]

/-- Splitting a column sum along a predicate. -/
theorem qsum_filter_add {α : Type} (p : α → Bool) (f : α → EN) :
    ∀ (t : List α),
      qsum ((t.filter p).map f) + qsum ((t.filter (fun b => !(p b))).map f)
        = qsum (t.map f) := by
  intro t
  induction t with
  | nil => simp [qsum]
  | cons a s ih =>
    by_cases hpa : p a = true
    · rw [List.filter_cons_of_pos hpa, List.filter_cons_of_neg (by simp [hpa]),
        List.map_cons, List.map_cons, qsum_cons, qsum_cons, ← ih]
      ring
    · rw [List.filter_cons_of_neg hpa, List.filter_cons_of_pos (by simp [hpa]),
        List.map_cons, List.map_cons, qsum_cons, qsum_cons, ← ih]
      ring

/-! ### Claim C10 -/

/-- C10: for every weighting-method string other than the four recognized
options, `calculate_weighted_votes` returns its input unchanged — no
weighted-points column is added and no error is raised. -/
theorem unknown_weighting_identity (l : List FRow) (m : String)
    (h1 : m ≠ "No weights") (h2 : m ≠ "Divide by participation count")
    (h3 : m ≠ "Divide by total points") (h4 : m ≠ "Divide by both") :
    calculate_weighted_votes l m = l := by
  unfold calculate_weighted_votes
  rw [if_neg (by simpa using h1), if_neg (by simpa using h2),
    if_neg (by simpa using h3), if_neg (by simpa using h4)]

/-- Witness for C10 at a concrete unrecognized method string. -/
theorem unknown_weighting_identity_witness :
    ("Divide by max" ≠ "No weights" ∧ "Divide by max" ≠ "Divide by participation count" ∧
     "Divide by max" ≠ "Divide by total points" ∧ "Divide by max" ≠ "Divide by both") ∧
    calculate_weighted_votes
      [{ year := 2021, round := "final", from_country := "fr", to_country := "de",
         to_country_name := some "Germany", points_given := EN.num 10,
         total_points := EN.num 12, to_country_participation := EN.num 1,
         weighted_points := none }] "Divide by max"
      = [{ year := 2021, round := "final", from_country := "fr", to_country := "de",
           to_country_name := some "Germany", points_given := EN.num 10,
           total_points := EN.num 12, to_country_participation := EN.num 1,
           weighted_points := none }] :=
  ⟨⟨by decide, by decide, by decide, by decide⟩,
    unknown_weighting_identity _ _ (by decide) (by decide) (by decide) (by decide)⟩

/-! ### Branch evaluations of the weighting step -/

theorem calc_none (l : List FRow) :
    calculate_weighted_votes l "No weights"
      = l.map (fun r => { r with weighted_points := some r.points_given }) := by
  unfold calculate_weighted_votes
  rw [if_pos (by decide)]

theorem calc_by_participation (l : List FRow) :
    calculate_weighted_votes l "Divide by participation count"
      = l.map (fun r =>
          { r with weighted_points := some (r.points_given.div r.to_country_participation) }) := by
  unfold calculate_weighted_votes
  rw [if_neg (by decide), if_pos (by decide)]

theorem calc_by_total (l : List FRow) :
    calculate_weighted_votes l "Divide by total points"
      = l.map (fun r =>
          { r with weighted_points := some (r.points_given.div r.total_points) }) := by
  unfold calculate_weighted_votes
  rw [if_neg (by decide), if_neg (by decide), if_pos (by decide)]

theorem calc_by_both (l : List FRow) :
    calculate_weighted_votes l "Divide by both"
      = l.map (fun r =>
          { r with weighted_points := some (r.points_given.div (r.total_points.mul r.to_country_participation)) }) := by
  unfold calculate_weighted_votes
  rw [if_neg (by decide), if_neg (by decide), if_neg (by decide), if_pos (by decide)]

/-! ### Claim C8 -/

/-- C8: for a vote record whose weighting divisor is zero or missing
(the participation count for by-participation, the round-points value for
by-total, their product for by-both), the weighting step raises no error:
the record is retained at its position and the weighted value it receives
is non-numeric (NaN or an infinity). -/
theorem zero_or_missing_divisor_silent (l : List FRow) (i : Nat) (r : FRow)
    (h : l[i]? = some r) :
    ((calculate_weighted_votes l "Divide by participation count").length = l.length ∧
     (calculate_weighted_votes l "Divide by total points").length = l.length ∧
     (calculate_weighted_votes l "Divide by both").length = l.length) ∧
    ((r.to_country_participation = EN.num 0 ∨ r.to_country_participation = EN.nan) →
      ∃ w, (calculate_weighted_votes l "Divide by participation count")[i]?
              = some { r with weighted_points := some w } ∧ w.isNum = false) ∧
    ((r.total_points = EN.num 0 ∨ r.total_points = EN.nan) →
      ∃ w, (calculate_weighted_votes l "Divide by total points")[i]?
              = some { r with weighted_points := some w } ∧ w.isNum = false) ∧
    ((r.total_points.mul r.to_country_participation = EN.num 0 ∨
        r.total_points.mul r.to_country_participation = EN.nan) →
      ∃ w, (calculate_weighted_votes l "Divide by both")[i]?
              = some { r with weighted_points := some w } ∧ w.isNum = false) := by
  refine ⟨⟨?_, ?_, ?_⟩, ?_, ?_, ?_⟩
  · rw [calc_by_participation, List.length_map]
  · rw [calc_by_total, List.length_map]
  · rw [calc_by_both, List.length_map]
  · intro hd
    refine ⟨r.points_given.div r.to_country_participation, ?_, ?_⟩
    · rw [calc_by_participation, List.getElem?_map, h]
      rfl
    · exact EN.div_zero_or_nan _ _ hd
  · intro hd
    refine ⟨r.points_given.div r.total_points, ?_, ?_⟩
    · rw [calc_by_total, List.getElem?_map, h]
      rfl
    · exact EN.div_zero_or_nan _ _ hd
  · intro hd
    refine ⟨r.points_given.div (r.total_points.mul r.to_country_participation), ?_, ?_⟩
    · rw [calc_by_both, List.getElem?_map, h]
      rfl
    · exact EN.div_zero_or_nan _ _ hd

/-- Witness for C8: a concrete record with a zero by-total divisor gets a
non-numeric weighted value and is retained. -/
theorem zero_or_missing_divisor_silent_witness :
    ∃ w, (calculate_weighted_votes
            [{ year := 2021, round := "semi-final", from_country := "fr", to_country := "de",
               to_country_name := some "Germany", points_given := EN.num 10,
               total_points := EN.num 0, to_country_participation := EN.nan,
               weighted_points := none }] "Divide by total points")[0]?
          = some { year := 2021, round := "semi-final", from_country := "fr", to_country := "de",
                   to_country_name := some "Germany", points_given := EN.num 10,
                   total_points := EN.num 0, to_country_participation := EN.nan,
                   weighted_points := some w } ∧ w.isNum = false := by
  exact (zero_or_missing_divisor_silent
      [{ year := 2021, round := "semi-final", from_country := "fr", to_country := "de",
         to_country_name := some "Germany", points_given := EN.num 10,
         total_points := EN.num 0, to_country_participation := EN.nan,
         weighted_points := none }] 0
      { year := 2021, round := "semi-final", from_country := "fr", to_country := "de",
        to_country_name := some "Germany", points_given := EN.num 10,
        total_points := EN.num 0, to_country_participation := EN.nan,
        weighted_points := none } rfl).2.2.1 (Or.inl rfl)

/-! ### Provenance of merged rows -/

/-- Every merged row carries the fields of some input vote, and its
`total_points_overall` is the round-conditional points value. -/
theorem mergeVC_row_src {vs : List Vote} {cont : List Contestant} {m : MRow}
    (h : m ∈ mergeVC vs cont) :
    ∃ v ∈ vs, m.year = v.year ∧ m.round = v.round ∧
      m.from_country_id = v.from_country_id ∧ m.to_country_id = v.to_country_id ∧
      m.to_country_x = v.to_country ∧ m.points_sf = v.points_sf ∧
      m.points_final = v.points_final ∧ m.total_points = v.total_points ∧
      m.total_points_overall = (if m.round == "final" then m.points_final else m.points_sf) := by
  unfold mergeVC at h
  rw [List.mem_flatMap] at h
  obtain ⟨v, hv, hm⟩ := h
  refine ⟨v, hv, ?_⟩
  cases hfil : cont.filter (fun c => c.year == v.year && c.to_country_id == v.to_country_id) with
  | nil =>
    rw [hfil] at hm
    simp only [List.mem_singleton] at hm
    subst hm
    simp [mkMRow]
  | cons c cs =>
    rw [hfil] at hm
    rw [List.mem_map] at hm
    obtain ⟨c1, _, hm⟩ := hm
    subst hm
    simp [mkMRow]

/-! ### Claim C2 -/

/-- Modelled from the spec: the "total points awarded by the voting
country in that round" — the sum of the raw points (`points_given`) over
all merged records with the given voting country, year and round. -/
def specTotalAwardedBy (rows : List FRow) (c : String) (y : Int) (rd : String) : ℚ :=
  qsum ((rows.filter (fun r => r.from_country == c && r.year == y && r.round == rd)).map
    FRow.points_given)

/-- Concrete contestants for the C2 counterexample. -/
def exCont2 : List Contestant :=
  [{ year := 2021, to_country_id := "de", to_country := "Germany" },
   { year := 2021, to_country_id := "it", to_country := "Italy" }]

/-- Concrete votes for the C2 counterexample: one voter (fr) awards 10
and 5 raw points in the same (2021, final) round. -/
def exVotes2 : List Vote :=
  [{ year := 2021, round := "final", from_country_id := "fr", to_country_id := "de",
     to_country := "de", points_sf := EN.nan, points_final := EN.num 12,
     total_points := EN.num 10 },
   { year := 2021, round := "final", from_country_id := "fr", to_country_id := "it",
     to_country := "it", points_sf := EN.nan, points_final := EN.num 12,
     total_points := EN.num 5 }]

/-- C2 counterexample: under by-total the first record's weighted value is
10/12 (its own round-points value 12 as divisor), while the total points
awarded by the voting country fr in (2021, final) is 10 + 5 = 15, and
10/12 differs from 10/15. -/
theorem by_total_divisor_not_voter_budget :
    ((calculate_weighted_votes (V1.finalDf exCont2 exVotes2) "Divide by total points").head?).map
        FRow.weighted_points = some (some (EN.num (10 / 12))) ∧
    specTotalAwardedBy (V1.finalDf exCont2 exVotes2) "fr" 2021 "final" = 15 ∧
    EN.num (10 / 12) ≠ EN.num (10 / 15) := by
  refine ⟨by decide, by decide, by decide⟩

/-- C2 (amended): under the by-total strategy the weighted points equal
the vote's raw points (`points_given`, the input `total_points` column)
divided by the record's own round-specific points value — `points_final`
when its round is final, else `points_sf` — the column the preprocessing
renames to `total_points`; not by a per-voter total. -/
theorem by_total_divides_by_round_points (cont : List Contestant) (votes : List Vote)
    (i : Nat) (r : FRow) (h : (V1.finalDf cont votes)[i]? = some r) :
    (calculate_weighted_votes (V1.finalDf cont votes) "Divide by total points")[i]?
      = some { r with weighted_points := some (r.points_given.div r.total_points) } ∧
    ∃ v ∈ votes, r.points_given = v.total_points ∧
      r.total_points = (if r.round == "final" then v.points_final else v.points_sf) := by
  constructor
  · rw [calc_by_total, List.getElem?_map, h]
    rfl
  · have hr : r ∈ V1.finalDf cont votes := List.getElem?_mem h
    unfold V1.finalDf at hr
    rw [List.mem_map] at hr
    obtain ⟨m, hm, hr⟩ := hr
    unfold V1.merged at hm
    obtain ⟨v1, hv1, hy⟩ := mergeVC_row_src hm
    unfold V1.votesNorm at hv1
    rw [List.mem_map] at hv1
    obtain ⟨v, hv, hveq⟩ := hv1
    refine ⟨v, hv, ?_, ?_⟩
    · rw [← hr]
      show m.total_points = v.total_points
      rw [hy.2.2.2.2.2.2.2.1, ← hveq]
    · rw [← hr]
      show m.total_points_overall
          = if (V1.toFRow (V1.participationOf cont votes) m).round == "final"
            then v.points_final else v.points_sf
      have hround : (V1.toFRow (V1.participationOf cont votes) m).round = m.round := rfl
      rw [hround, hy.2.2.2.2.2.2.2.2, hy.2.2.2.2.2.1, hy.2.2.2.2.2.2.1, ← hveq]

/-- Witness for the amended C2 theorem at the concrete example input. -/
theorem by_total_divides_by_round_points_witness :
    ((V1.finalDf exCont2 exVotes2)[0]?
        = some { year := 2021, round := "final", from_country := "fr", to_country := "de",
                 to_country_name := some "Germany", points_given := EN.num 10,
                 total_points := EN.num 12, to_country_participation := EN.num 1,
                 weighted_points := none }) ∧
    ((calculate_weighted_votes (V1.finalDf exCont2 exVotes2) "Divide by total points")[0]?
        = some { year := 2021, round := "final", from_country := "fr", to_country := "de",
                 to_country_name := some "Germany", points_given := EN.num 10,
                 total_points := EN.num 12, to_country_participation := EN.num 1,
                 weighted_points := some ((EN.num 10).div (EN.num 12)) } ∧
      ∃ v ∈ exVotes2, EN.num 10 = v.total_points ∧
        EN.num 12 = (if ("final" : String) == "final" then v.points_final else v.points_sf)) := by
  refine ⟨by decide, ?_⟩
  exact by_total_divides_by_round_points exCont2 exVotes2 0
    { year := 2021, round := "final", from_country := "fr", to_country := "de",
      to_country_name := some "Germany", points_given := EN.num 10,
      total_points := EN.num 12, to_country_participation := EN.num 1,
      weighted_points := none } (by decide)

/-! ### Claim C4 -/

/-- Concrete contestants for the C4 failing input. -/
def exCont4 : List Contestant :=
  [{ year := 2021, to_country_id := "de", to_country := "Germany" }]

/-- Concrete votes for the C4 failing input: a single self-vote. -/
def exVotes4 : List Vote :=
  [{ year := 2021, round := "final", from_country_id := "de", to_country_id := "de",
     to_country := "de", points_sf := EN.nan, points_final := EN.num 12,
     total_points := EN.num 10 }]

/-- Concrete configuration for the C4 failing input. -/
def exCfg4 : Config :=
  { weighting_method := "No weights", min_participations := 1,
    selected_countries := ["Germany"], top3_only := false, final_only := false }

/-- C4 (code bug in variant V2's download path): at a concrete input with
a surviving self-vote, the downloadable edge CSV of variant V2 contains an
edge with from_country = to_country, while the displayed aggregated edge
lists of both variants exclude self-loops at the same input. -/
theorem downloaded_edges_contain_self_loop :
    ({ from_country := "de", to_country := "de", weighted_points := EN.num 10 } : Edge)
        ∈ V2.downloadEdges exCont4 exVotes4 [] exCfg4 ∧
    (V2.edgesDisp exCont4 exVotes4 [] exCfg4).all
        (fun e => e.from_country != e.to_country) = true ∧
    (V1.edges exCont4 exVotes4 exCfg4).all
        (fun e => e.from_country != e.to_country) = true := by
  refine ⟨by decide, by decide, by decide⟩

/-! ### Claim C6 -/

/-- Modelled from the spec: the number of distinct (year, round) pairs in
which a country appears as a vote destination, after the pre-aggregation
filters. -/
def specDistinctYearRounds (votes : List Vote) (cfg : Config) (c : String) : Nat :=
  (dedupF (((V2.votesFiltered votes cfg).filter (fun v => v.to_country_id == c)).map
    (fun v => (v.year, v.round)))).length

/-- Concrete contestants for the C6 counterexample. -/
def exCont6 : List Contestant :=
  [{ year := 2021, to_country_id := "de", to_country := "Germany" }]

/-- Concrete votes for the C6 counterexample: the destination id "de" is
recorded under two votes-side names within one (year, round). -/
def exVotes6 : List Vote :=
  [{ year := 2021, round := "final", from_country_id := "fr", to_country_id := "de",
     to_country := "Germany", points_sf := EN.nan, points_final := EN.num 12,
     total_points := EN.num 10 },
   { year := 2021, round := "final", from_country_id := "es", to_country_id := "de",
     to_country := "Deutschland", points_sf := EN.nan, points_final := EN.num 12,
     total_points := EN.num 5 }]

/-- Concrete configuration for the C6 counterexample. -/
def exCfg6 : Config :=
  { weighting_method := "No weights", min_participations := 1,
    selected_countries := ["Germany"], top3_only := false, final_only := false }

/-- C6 counterexample: the final node list reports participation_count 2
for "de" although "de" appears as destination in exactly one distinct
(year, round) pair. -/
theorem participation_count_counts_name_variants :
    (∃ r ∈ (V2.mainOut exCont6 exVotes6 [] exCfg6).2.1,
        r.country_id = "de" ∧ r.count = 2) ∧
    specDistinctYearRounds exVotes6 exCfg6 "de" = 1 := by
  refine ⟨⟨{ country_id := "de", country_name := some "Germany", count := 2, dims := none },
    by decide, rfl, rfl⟩, by decide⟩

/-- A cultural-join row keeps the id, name and count of its source row. -/
theorem culturalJoin_fields {cu : List Cultural} {r x : NodeV2}
    (h : x ∈ V2.culturalJoin cu r) :
    x.country_id = r.country_id ∧ x.country_name = r.country_name ∧ x.count = r.count := by
  unfold V2.culturalJoin at h
  cases hfil : cu.filter (fun c => c.country_id == r.country_id) with
  | nil =>
    rw [hfil] at h
    simp only [List.mem_singleton] at h
    subst h
    exact ⟨rfl, rfl, rfl⟩
  | cons c cs =>
    rw [hfil] at h
    rw [List.mem_map] at h
    obtain ⟨c1, _, h⟩ := h
    subst h
    exact ⟨rfl, rfl, rfl⟩

/-- The pre-aggregation filters read only the top3 and final-only flags. -/
theorem votesFiltered_flags (votes : List Vote) (cfg cfg2 : Config)
    (h3 : cfg2.top3_only = cfg.top3_only) (hf : cfg2.final_only = cfg.final_only) :
    V2.votesFiltered votes cfg2 = V2.votesFiltered votes cfg := by
  unfold V2.votesFiltered V2.votesFinal V2.votesTop3
  rw [h3, hf]

/-- C6 (amended): a node's participation_count equals the number of
distinct (year, round, votes-side name, joined contestant name) tuples in
which its id appears as destination after the pre-aggregation filters —
name variants are counted separately; the count is the one computed before
the min_participations and country-selection filters (any configuration
agreeing on the two pre-aggregation flags yields the same value). -/
theorem participation_count_formula (cont : List Contestant) (votes : List Vote)
    (cu : List Cultural) (cfg cfg2 : Config) (r : NodeV2)
    (h : r ∈ (V2.mainOut cont votes cu cfg).2.1)
    (h3 : cfg2.top3_only = cfg.top3_only) (hf : cfg2.final_only = cfg.final_only) :
    r.count = (dedupF (((V2.merged cont votes cfg2).filter
        (fun m => m.to_country_id == r.country_id)).map V2.toURow2)).length ∧
    r ∈ V2.nodesPre cont votes cu cfg := by
  have hmerged : V2.merged cont votes cfg2 = V2.merged cont votes cfg := by
    unfold V2.merged
    rw [votesFiltered_flags votes cfg cfg2 h3 hf]
  have hpre : r ∈ V2.nodesPre cont votes cu cfg := by
    have h1 : r ∈ V2.nccMin cont votes cu cfg := List.mem_of_mem_filter h
    exact List.mem_of_mem_filter h1
  refine ⟨?_, hpre⟩
  unfold V2.nodesPre at hpre
  rw [List.mem_flatMap] at hpre
  obtain ⟨r0, hr0, hrj⟩ := hpre
  obtain ⟨hid, _, hcount⟩ := culturalJoin_fields hrj
  unfold V2.countryCounts at hr0
  rw [List.mem_map] at hr0
  obtain ⟨i, _, hr0⟩ := hr0
  have hident : r0.country_id = i := by rw [← hr0]
  have hcnt : r0.count = ((V2.uniqueYears cont votes cfg).filter
      (fun t => t.to_country_id == i)).length := by rw [← hr0]
  rw [hmerged, hcount, hcnt, hid, hident]
  unfold V2.uniqueYears
  rw [← dedupF_filter, filter_map_comm]
  rfl

/-- Witness for the amended C6 theorem at the concrete input. -/
theorem participation_count_formula_witness :
    ({ country_id := "de", country_name := some "Germany", count := 2, dims := none } : NodeV2).count
        = (dedupF (((V2.merged exCont6 exVotes6 exCfg6).filter
            (fun m => m.to_country_id ==
              ({ country_id := "de", country_name := some "Germany", count := 2,
                 dims := none } : NodeV2).country_id)).map V2.toURow2)).length ∧
    ({ country_id := "de", country_name := some "Germany", count := 2, dims := none } : NodeV2)
        ∈ V2.nodesPre exCont6 exVotes6 [] exCfg6 := by
  exact participation_count_formula exCont6 exVotes6 [] exCfg6 exCfg6 _ (by decide) rfl rfl

/-! ### Claim C3 -/

/-- The ids of the V2 aggregate are the deduplicated destination ids. -/
theorem countryCounts_map_id (cont : List Contestant) (votes : List Vote) (cfg : Config) :
    (V2.countryCounts cont votes cfg).map NodeV2.country_id
      = dedupF ((V2.uniqueYears cont votes cfg).map V2.URow2.to_country_id) := by
  unfold V2.countryCounts
  rw [List.map_map]
  exact List.map_id _

/-- Elements removed by a filter contribute nothing to a `filterMap`
that is `none` wherever the filter rejects. -/
theorem filterMap_filter_none {α β : Type} (p : α → Bool) (f : α → Option β)
    (h : ∀ b, p b = false → f b = none) :
    ∀ (l : List α), (l.filter p).filterMap f = l.filterMap f := by
  intro l
  induction l with
  | nil => rfl
  | cons b t ih =>
    by_cases hpb : p b = true
    · rw [List.filter_cons_of_pos hpb, List.filterMap_cons, List.filterMap_cons]
      cases f b <;> rw [ih]
    · rw [List.filter_cons_of_neg hpb, List.filterMap_cons]
      rw [h b (by revert hpb; cases p b <;> simp), ih]

/-- The first non-missing value of a list is unchanged by first-occurrence
deduplication: a removed duplicate repeats an earlier element with the
same value. -/
theorem head?_filterMap_dedupF {α β : Type} [DecidableEq α] (f : α → Option β) :
    ∀ (l : List α), ((dedupF l).filterMap f).head? = (l.filterMap f).head? := by
  intro l
  induction l with
  | nil => rfl
  | cons a t ih =>
    rw [dedupF, List.filterMap_cons, List.filterMap_cons]
    cases hfa : f a with
    | some b => rfl
    | none =>
      rw [filterMap_filter_none _ f ?_ _, ih]
      intro b hb
      have hba : (b == a) = true := by simpa [bne] using hb
      rw [beq_iff_eq.mp hba, hfa]

/-- Each V2 aggregate row carries the pandas-`first` contestant name of
its country id: the first non-missing name over the merged rows in input
order. -/
theorem countryCounts_name (cont : List Contestant) (votes : List Vote) (cfg : Config)
    {r0 : NodeV2} (h : r0 ∈ V2.countryCounts cont votes cfg) :
    r0.country_name = (((V2.merged cont votes cfg).filter
        (fun m => m.to_country_id == r0.country_id)).filterMap MRow.to_country_y).head? := by
  unfold V2.countryCounts at h
  rw [List.mem_map] at h
  obtain ⟨i, _, h⟩ := h
  have hid : r0.country_id = i := by rw [← h]
  have hname : r0.country_name = ((((V2.uniqueYears cont votes cfg).filter
      (fun t => t.to_country_id == i)).filterMap V2.URow2.to_country_y)).head? := by rw [← h]
  rw [hname, hid]
  unfold V2.uniqueYears
  rw [← dedupF_filter, head?_filterMap_dedupF,
    show (List.filter (fun t => t.to_country_id == i)
        (List.map V2.toURow2 (V2.merged cont votes cfg)))
      = (List.map V2.toURow2 ((V2.merged cont votes cfg).filter
          (fun m => m.to_country_id == i))) from filter_map_comm _ _ _,
    List.filterMap_map]
  rfl

/-- With unique cultural keys, the cultural left join keeps exactly one
row per aggregate row. -/
theorem culturalJoin_length {cu : List Cultural}
    (hcu : (cu.map Cultural.country_id).Nodup) (r : NodeV2) :
    (V2.culturalJoin cu r).length = 1 := by
  unfold V2.culturalJoin
  cases hfil : cu.filter (fun c => c.country_id == r.country_id) with
  | nil => rfl
  | cons c cs =>
    rw [List.length_map]
    have hle := length_filter_key_le_one Cultural.country_id r.country_id cu hcu
    rw [hfil] at hle
    simp only [List.length_cons] at hle ⊢
    omega

/-- Restricting the joined node list to one id restricts the aggregate. -/
theorem nodesPre_filter_id (cont : List Contestant) (votes : List Vote)
    (cu : List Cultural) (cfg : Config) (c : String) :
    (V2.nodesPre cont votes cu cfg).filter (fun r => r.country_id == c)
      = ((V2.countryCounts cont votes cfg).filter
          (fun r => r.country_id == c)).flatMap (V2.culturalJoin cu) := by
  unfold V2.nodesPre
  rw [List.filter_flatMap, ← flatMap_ite]
  apply List.flatMap_congr
  intro r0 _
  by_cases hid : (r0.country_id == c) = true
  · rw [if_pos hid]
    apply List.filter_eq_self.mpr
    intro x hx
    rw [(culturalJoin_fields hx).1]
    exact hid
  · rw [if_neg hid]
    apply List.filter_eq_nil_iff.mpr
    intro x hx hx2
    rw [(culturalJoin_fields hx).1] at hx2
    exact hid hx2

/-- Concrete contestants for C3: id "de" is named "Germany" in 2021 and
"Deutschland" in 2022. -/
def exCont3 : List Contestant :=
  [{ year := 2021, to_country_id := "de", to_country := "Germany" },
   { year := 2022, to_country_id := "de", to_country := "Deutschland" }]

/-- Concrete votes for C3: "de" receives votes in both years. -/
def exVotes3 : List Vote :=
  [{ year := 2021, round := "final", from_country_id := "fr", to_country_id := "de",
     to_country := "de", points_sf := EN.nan, points_final := EN.num 12,
     total_points := EN.num 10 },
   { year := 2022, round := "final", from_country_id := "fr", to_country_id := "de",
     to_country := "de", points_sf := EN.nan, points_final := EN.num 12,
     total_points := EN.num 8 }]

/-- A cultural table with two rows for "de" (C3 counterexample). -/
def exCu3 : List Cultural :=
  [{ country_id := "de", dims := [EN.num 1] }, { country_id := "de", dims := [EN.num 2] }]

/-- A cultural table with one row for "de" (C3 witness). -/
def exCu3w : List Cultural := [{ country_id := "de", dims := [EN.num 1] }]

/-- Concrete configuration for C3. -/
def exCfg3 : Config :=
  { weighting_method := "No weights", min_participations := 1,
    selected_countries := ["Germany"], top3_only := false, final_only := false }

/-- C3 counterexample: with the same country id recorded under two names
across years and a cultural table holding two rows for that id, the final
node list contains two rows for the id — not exactly one. -/
theorem duplicate_cultural_rows_fragment_nodes :
    ((V2.mainOut exCont3 exVotes3 exCu3 exCfg3).2.1.filter
        (fun r => r.country_id == "de")).length = 2 ∧
    (∃ m1 ∈ V2.merged exCont3 exVotes3 exCfg3, ∃ m2 ∈ V2.merged exCont3 exVotes3 exCfg3,
      m1.to_country_id = "de" ∧ m2.to_country_id = "de" ∧
      m1.to_country_y ≠ m2.to_country_y) := by
  exact ⟨by decide, by decide⟩

/-- C3 (amended): provided the cultural-attributes table has at most one
row per country id, a country id that appears as a destination has exactly
one row in the aggregated node list, every such row carries the
first-seen non-missing contestant name in input order, and the final node list never
contains more than one row for the id (its row, when retained by the
downstream filters, carries that same first-seen name). -/
theorem unique_node_per_country_id (cont : List Contestant) (votes : List Vote)
    (cu : List Cultural) (cfg : Config) (c : String)
    (hcu : (cu.map Cultural.country_id).Nodup)
    (hc : ∃ m ∈ V2.merged cont votes cfg, m.to_country_id = c) :
    ((V2.nodesPre cont votes cu cfg).filter (fun r => r.country_id == c)).length = 1 ∧
    (∀ r ∈ V2.nodesPre cont votes cu cfg, r.country_id = c →
        r.country_name = (((V2.merged cont votes cfg).filter
          (fun m => m.to_country_id == c)).filterMap MRow.to_country_y).head?) ∧
    (((V2.mainOut cont votes cu cfg).2.1).filter (fun r => r.country_id == c)).length ≤ 1 ∧
    (∀ r ∈ (V2.mainOut cont votes cu cfg).2.1, r.country_id = c →
        r.country_name = (((V2.merged cont votes cfg).filter
          (fun m => m.to_country_id == c)).filterMap MRow.to_country_y).head?) := by
  have hnamePre : ∀ r ∈ V2.nodesPre cont votes cu cfg, r.country_id = c →
      r.country_name = (((V2.merged cont votes cfg).filter
        (fun m => m.to_country_id == c)).filterMap MRow.to_country_y).head? := by
    intro r hr hrc
    unfold V2.nodesPre at hr
    rw [List.mem_flatMap] at hr
    obtain ⟨r0, hr0, hrj⟩ := hr
    obtain ⟨hid, hname, _⟩ := culturalJoin_fields hrj
    rw [hname, countryCounts_name cont votes cfg hr0, ← hid, hrc]
  have hlenPre : ((V2.nodesPre cont votes cu cfg).filter
      (fun r => r.country_id == c)).length = 1 := by
    rw [nodesPre_filter_id]
    have hnodup : ((V2.countryCounts cont votes cfg).map NodeV2.country_id).Nodup := by
      rw [countryCounts_map_id]
      exact nodup_dedupF _
    have hle := length_filter_key_le_one NodeV2.country_id c _ hnodup
    have hmem : ∃ r0 ∈ V2.countryCounts cont votes cfg, r0.country_id = c := by
      obtain ⟨m, hm, hmc⟩ := hc
      refine ⟨{ country_id := c
                country_name := (((V2.uniqueYears cont votes cfg).filter
                  (fun t => t.to_country_id == c)).filterMap V2.URow2.to_country_y).head?
                count := ((V2.uniqueYears cont votes cfg).filter
                  (fun t => t.to_country_id == c)).length
                dims := none }, ?_, rfl⟩
      unfold V2.countryCounts
      apply List.mem_map_of_mem
      rw [mem_dedupF]
      have : V2.toURow2 m ∈ (V2.uniqueYears cont votes cfg) := by
        unfold V2.uniqueYears
        rw [mem_dedupF]
        exact List.mem_map_of_mem _ hm
      have h2 := List.mem_map_of_mem V2.URow2.to_country_id this
      rw [show (V2.toURow2 m).to_country_id = m.to_country_id from rfl, hmc] at h2
      exact h2
    obtain ⟨r0, hr0, hr0c⟩ := hmem
    have hpos : 0 < ((V2.countryCounts cont votes cfg).filter
        (fun r => r.country_id == c)).length := by
      apply List.length_pos_of_mem
      rw [List.mem_filter]
      exact ⟨hr0, by simp [hr0c]⟩
    have hone : ((V2.countryCounts cont votes cfg).filter
        (fun r => r.country_id == c)).length = 1 := by omega
    obtain ⟨a, ha⟩ := List.length_eq_one.mp hone
    rw [ha]
    simp only [List.flatMap_cons, List.flatMap_nil, List.append_nil]
    exact culturalJoin_length hcu a
  have hsub : (V2.mainOut cont votes cu cfg).2.1.Sublist (V2.nodesPre cont votes cu cfg) := by
    show (V2.nodes cont votes cu cfg).Sublist (V2.nodesPre cont votes cu cfg)
    unfold V2.nodes V2.nccMin
    exact (List.filter_sublist _).trans (List.filter_sublist _)
  refine ⟨hlenPre, hnamePre, ?_, ?_⟩
  · calc (((V2.mainOut cont votes cu cfg).2.1).filter
          (fun r => r.country_id == c)).length
        ≤ ((V2.nodesPre cont votes cu cfg).filter
          (fun r => r.country_id == c)).length := (hsub.filter _).length_le
      _ = 1 := hlenPre
  · intro r hr hrc
    exact hnamePre r (hsub.mem hr) hrc

/-- Witness for the amended C3 theorem at the concrete two-name input. -/
theorem unique_node_per_country_id_witness :
    ((V2.nodesPre exCont3 exVotes3 exCu3w exCfg3).filter
        (fun r => r.country_id == "de")).length = 1 ∧
    (∀ r ∈ V2.nodesPre exCont3 exVotes3 exCu3w exCfg3, r.country_id = "de" →
        r.country_name = (((V2.merged exCont3 exVotes3 exCfg3).filter
          (fun m => m.to_country_id == "de")).filterMap MRow.to_country_y).head?) ∧
    (((V2.mainOut exCont3 exVotes3 exCu3w exCfg3).2.1).filter
        (fun r => r.country_id == "de")).length ≤ 1 ∧
    (∀ r ∈ (V2.mainOut exCont3 exVotes3 exCu3w exCfg3).2.1, r.country_id = "de" →
        r.country_name = (((V2.merged exCont3 exVotes3 exCfg3).filter
          (fun m => m.to_country_id == "de")).filterMap MRow.to_country_y).head?) := by
  exact unique_node_per_country_id exCont3 exVotes3 exCu3w exCfg3 "de" (by decide)
    ⟨{ year := 2021, round := "final", from_country_id := "fr", to_country_id := "de",
       to_country_x := "de", to_country_y := some "Germany", points_sf := EN.nan,
       points_final := EN.num 12, total_points := EN.num 10,
       total_points_overall := EN.num 12 }, by decide, rfl⟩

/-! ### Claim C9 -/

/-- Filtering with a stronger predicate yields a sublist of filtering
with a weaker one. -/
theorem filter_sublist_of_imp {α : Type} (p q : α → Bool) :
    ∀ (l : List α), (∀ a ∈ l, p a = true → q a = true) →
      (l.filter p).Sublist (l.filter q) := by
  intro l
  induction l with
  | nil => intro _; simp
  | cons a t ih =>
    intro h
    have ht := ih (fun b hb => h b (List.mem_cons_of_mem a hb))
    by_cases hpa : p a = true
    · rw [List.filter_cons_of_pos hpa,
        List.filter_cons_of_pos (h a (List.mem_cons_self a t) hpa)]
      exact ht.cons₂ a
    · rw [List.filter_cons_of_neg hpa]
      by_cases hqa : q a = true
      · rw [List.filter_cons_of_pos hqa]
        exact ht.cons a
      · rw [List.filter_cons_of_neg hqa]
        exact ht

/-- C9: with all other parameters fixed, raising min_participations never
increases the size of the final node list, in either pipeline variant. -/
theorem min_participations_monotone (cont : List Contestant) (votes : List Vote)
    (cu : List Cultural) (cfg : Config) (m2 : Nat)
    (h : cfg.min_participations ≤ m2) :
    ((V1.mainOut cont votes { cfg with min_participations := m2 }).2).length
        ≤ ((V1.mainOut cont votes cfg).2).length ∧
    ((V2.mainOut cont votes cu { cfg with min_participations := m2 }).2.1).length
        ≤ ((V2.mainOut cont votes cu cfg).2.1).length := by
  constructor
  · show ((V1.nodes cont votes { cfg with min_participations := m2 }).length
        ≤ (V1.nodes cont votes cfg).length)
    unfold V1.nodes V1.nccMin
    apply List.Sublist.length_le
    apply List.Sublist.filter
    apply filter_sublist_of_imp
    intro r _ hr
    simp only [decide_eq_true_eq] at hr ⊢
    omega
  · show ((V2.nodes cont votes cu { cfg with min_participations := m2 }).length
        ≤ (V2.nodes cont votes cu cfg).length)
    unfold V2.nodes V2.nccMin
    apply List.Sublist.length_le
    apply List.Sublist.filter
    apply filter_sublist_of_imp
    intro r _ hr
    simp only [decide_eq_true_eq] at hr ⊢
    omega

/-- Concrete contestants for the C9 witness. -/
def exCont9 : List Contestant :=
  [{ year := 2021, to_country_id := "de", to_country := "Germany" }]

/-- Concrete votes for the C9 witness. -/
def exVotes9 : List Vote :=
  [{ year := 2021, round := "final", from_country_id := "fr", to_country_id := "de",
     to_country := "de", points_sf := EN.nan, points_final := EN.num 12,
     total_points := EN.num 10 }]

/-- Concrete configuration for the C9 witness. -/
def exCfg9 : Config :=
  { weighting_method := "No weights", min_participations := 1,
    selected_countries := ["Germany"], top3_only := false, final_only := false }

/-- Witness for C9 at a concrete input, raising the threshold from 1 to 2. -/
theorem min_participations_monotone_witness :
    exCfg9.min_participations ≤ 2 ∧
    (((V1.mainOut exCont9 exVotes9 { exCfg9 with min_participations := 2 }).2).length
        ≤ ((V1.mainOut exCont9 exVotes9 exCfg9).2).length ∧
     ((V2.mainOut exCont9 exVotes9 [] { exCfg9 with min_participations := 2 }).2.1).length
        ≤ ((V2.mainOut exCont9 exVotes9 [] exCfg9).2.1).length) :=
  ⟨by decide, min_participations_monotone exCont9 exVotes9 [] exCfg9 2 (by decide)⟩

/-! ### Claim C5 -/

/-- Every aggregated edge takes its endpoints from some contributing row. -/
theorem groupEdges_mem {l : List FRow} {e : Edge} (h : e ∈ groupEdges l) :
    ∃ r ∈ l, r.from_country = e.from_country ∧ r.to_country = e.to_country := by
  unfold groupEdges at h
  rw [List.mem_map] at h
  obtain ⟨k, hk, he⟩ := h
  rw [mem_dedupF, List.mem_map] at hk
  obtain ⟨r, hr, hkr⟩ := hk
  have h1 : e.from_country = k.1 := by rw [← he]
  have h2 : e.to_country = k.2 := by rw [← he]
  have h3 : k.1 = r.from_country := by rw [← hkr]
  have h4 : k.2 = r.to_country := by rw [← hkr]
  exact ⟨r, hr, by rw [h1, h3], by rw [h2, h4]⟩

/-- The weighting step never invents endpoints: each output row has the
endpoints of some input row. -/
theorem calc_endpoints {l : List FRow} {m : String} {r : FRow}
    (h : r ∈ calculate_weighted_votes l m) :
    ∃ r0 ∈ l, r0.from_country = r.from_country ∧ r0.to_country = r.to_country := by
  unfold calculate_weighted_votes at h
  split_ifs at h <;>
    first
    | exact ⟨r, h, rfl, rfl⟩
    | · rw [List.mem_map] at h
        obtain ⟨r0, hr0, he⟩ := h
        exact ⟨r0, hr0, by rw [← he], by rw [← he]⟩

/-- A selected id of variant V1 is the id of a node row whose name was
selected. -/
theorem selectedIdsV1_mem {nodes : List NodeV1} {selected : List String} {a : String}
    (h : a ∈ V1.selectedIds nodes selected) :
    ∃ nd ∈ nodes, nd.country_id = a ∧ nd.country_name ∈ selected := by
  unfold V1.selectedIds at h
  rw [List.mem_filterMap] at h
  obtain ⟨n, hn, hfind⟩ := h
  obtain ⟨p, hp, hpk, hpv⟩ := lastFind_mem hfind
  rw [List.mem_map] at hp
  obtain ⟨nd, hnd, hpnd⟩ := hp
  refine ⟨nd, hnd, ?_, ?_⟩
  · have : nd.country_id = p.2 := by rw [← hpnd]
    rw [this, hpv]
  · have h1 : nd.country_name = p.1 := by rw [← hpnd]
    have h2 : p.1 = n := by
      have := hpk
      rwa [beq_iff_eq] at this
    rw [h1, h2]
    exact hn

/-- A selected id of variant V2 is the id of a node row whose (present)
name was selected. -/
theorem selectedIdsV2_mem {nodes : List NodeV2} {selected : List String} {a : String}
    (h : a ∈ V2.selectedIds nodes selected) :
    ∃ nd ∈ nodes, nd.country_id = a ∧ ∃ n ∈ selected, nd.country_name = some n := by
  unfold V2.selectedIds at h
  rw [List.mem_filterMap] at h
  obtain ⟨n, hn, hfind⟩ := h
  obtain ⟨p, hp, hpk, hpv⟩ := lastFind_mem hfind
  rw [List.mem_map] at hp
  obtain ⟨nd, hnd, hpnd⟩ := hp
  refine ⟨nd, hnd, ?_, n, hn, ?_⟩
  · have : nd.country_id = p.2 := by rw [← hpnd]
    rw [this, hpv]
  · have h1 : nd.country_name = p.1 := by rw [← hpnd]
    have h2 : p.1 = some n := by
      have := hpk
      rwa [beq_iff_eq] at this
    rw [h1, h2]

/-- A V1 row surviving the selection filter has both endpoints in the
final V1 node list. -/
theorem fSelV1_endpoints {cont : List Contestant} {votes : List Vote} {cfg : Config}
    {r : FRow} (h : r ∈ V1.fSel cont votes cfg) :
    (∃ nd ∈ V1.nodes cont votes cfg, nd.country_id = r.from_country) ∧
    (∃ nd ∈ V1.nodes cont votes cfg, nd.country_id = r.to_country) := by
  unfold V1.fSel filterByIds at h
  rw [List.mem_filter, Bool.and_eq_true] at h
  obtain ⟨hmem, hto, hfrom⟩ := h
  have key : ∀ a : String, a ∈ V1.selectedIds (V1.nccMin cont votes cfg) cfg.selected_countries →
      ∃ nd ∈ V1.nodes cont votes cfg, nd.country_id = a := by
    intro a ha
    obtain ⟨nd, hnd, hid, hname⟩ := selectedIdsV1_mem ha
    refine ⟨nd, ?_, hid⟩
    unfold V1.nodes
    rw [List.mem_filter]
    exact ⟨hnd, List.elem_eq_true_of_mem hname⟩
  exact ⟨key _ (List.mem_of_elem_eq_true hfrom), key _ (List.mem_of_elem_eq_true hto)⟩

/-- A V2 row surviving the selection filter has both endpoints in the
final V2 node list. -/
theorem fSelV2_endpoints {cont : List Contestant} {votes : List Vote} {cu : List Cultural}
    {cfg : Config} {r : FRow} (h : r ∈ V2.fSel cont votes cu cfg) :
    (∃ nd ∈ V2.nodes cont votes cu cfg, nd.country_id = r.from_country) ∧
    (∃ nd ∈ V2.nodes cont votes cu cfg, nd.country_id = r.to_country) := by
  unfold V2.fSel filterByIds at h
  rw [List.mem_filter, Bool.and_eq_true] at h
  obtain ⟨hmem, hto, hfrom⟩ := h
  have key : ∀ a : String,
      a ∈ V2.selectedIds (V2.nccMin cont votes cu cfg) cfg.selected_countries →
      ∃ nd ∈ V2.nodes cont votes cu cfg, nd.country_id = a := by
    intro a ha
    obtain ⟨nd, hnd, hid, n, hn, hname⟩ := selectedIdsV2_mem ha
    refine ⟨nd, ?_, hid⟩
    unfold V2.nodes
    rw [List.mem_filter]
    refine ⟨hnd, ?_⟩
    rw [hname]
    exact List.elem_eq_true_of_mem hn
  exact ⟨key _ (List.mem_of_elem_eq_true hfrom), key _ (List.mem_of_elem_eq_true hto)⟩

/-- C5: every from_country and to_country of every emitted edge list —
variant V1's aggregated list, variant V2's displayed list and variant
V2's downloadable list — appears as a country_id in the corresponding
final node list. -/
theorem edge_endpoints_in_node_list (cont : List Contestant) (votes : List Vote)
    (cu : List Cultural) (cfg : Config) (e : Edge) :
    (e ∈ (V1.mainOut cont votes cfg).1 →
      (∃ r ∈ (V1.mainOut cont votes cfg).2, r.country_id = e.from_country) ∧
      (∃ r ∈ (V1.mainOut cont votes cfg).2, r.country_id = e.to_country)) ∧
    (e ∈ (V2.mainOut cont votes cu cfg).1 →
      (∃ r ∈ (V2.mainOut cont votes cu cfg).2.1, r.country_id = e.from_country) ∧
      (∃ r ∈ (V2.mainOut cont votes cu cfg).2.1, r.country_id = e.to_country)) ∧
    (e ∈ (V2.mainOut cont votes cu cfg).2.2 →
      (∃ r ∈ (V2.mainOut cont votes cu cfg).2.1, r.country_id = e.from_country) ∧
      (∃ r ∈ (V2.mainOut cont votes cu cfg).2.1, r.country_id = e.to_country)) := by
  refine ⟨?_, ?_, ?_⟩
  · intro he
    obtain ⟨r, hr, hf, ht⟩ := groupEdges_mem he
    have hrW : r ∈ V1.fW cont votes cfg := List.mem_of_mem_filter hr
    obtain ⟨r0, hr0, hf0, ht0⟩ := calc_endpoints hrW
    obtain ⟨hfrom, hto⟩ := fSelV1_endpoints hr0
    rw [hf0, hf] at hfrom
    rw [ht0, ht] at hto
    exact ⟨hfrom, hto⟩
  · intro he
    have he2 : e ∈ groupEdges (V2.dfFiltered cont votes cu cfg) := List.mem_of_mem_filter he
    obtain ⟨r, hr, hf, ht⟩ := groupEdges_mem he2
    have hrW : r ∈ V2.fW cont votes cu cfg := List.mem_of_mem_filter hr
    obtain ⟨r0, hr0, hf0, ht0⟩ := calc_endpoints hrW
    obtain ⟨hfrom, hto⟩ := fSelV2_endpoints hr0
    rw [hf0, hf] at hfrom
    rw [ht0, ht] at hto
    exact ⟨hfrom, hto⟩
  · intro he
    unfold V2.mainOut V2.downloadEdges at he
    rw [List.mem_map] at he
    obtain ⟨r, hr, hre⟩ := he
    obtain ⟨r0, hr0, hf0, ht0⟩ := calc_endpoints hr
    obtain ⟨hfrom, hto⟩ := fSelV2_endpoints hr0
    have hf : r.from_country = e.from_country := by rw [← hre]
    have ht : r.to_country = e.to_country := by rw [← hre]
    rw [hf0, hf] at hfrom
    rw [ht0, ht] at hto
    exact ⟨hfrom, hto⟩

/-- Concrete contestants for the C5 witness. -/
def exCont5 : List Contestant :=
  [{ year := 2021, to_country_id := "de", to_country := "Germany" },
   { year := 2021, to_country_id := "fr", to_country := "France" }]

/-- Concrete votes for the C5 witness: mutual votes so an edge survives. -/
def exVotes5 : List Vote :=
  [{ year := 2021, round := "final", from_country_id := "fr", to_country_id := "de",
     to_country := "de", points_sf := EN.nan, points_final := EN.num 12,
     total_points := EN.num 10 },
   { year := 2021, round := "final", from_country_id := "de", to_country_id := "fr",
     to_country := "fr", points_sf := EN.nan, points_final := EN.num 7,
     total_points := EN.num 5 }]

/-- Concrete configuration for the C5 witness. -/
def exCfg5 : Config :=
  { weighting_method := "No weights", min_participations := 1,
    selected_countries := ["Germany", "France"], top3_only := false, final_only := false }

/-- Witness for C5: the concrete V1 edge (fr, de) has both endpoints in
the final V1 node list. -/
theorem edge_endpoints_in_node_list_witness :
    (∃ r ∈ (V1.mainOut exCont5 exVotes5 exCfg5).2, r.country_id = "fr") ∧
    (∃ r ∈ (V1.mainOut exCont5 exVotes5 exCfg5).2, r.country_id = "de") :=
  (edge_endpoints_in_node_list exCont5 exVotes5 [] exCfg5
    { from_country := "fr", to_country := "de", weighted_points := EN.num 10 }).1 (by decide)

/-! ### Claim C7 -/

/-- Summing the groups of a partition by key recovers the column total:
generic over any duplicate-free key list covering the rows. -/
theorem qsum_partition_keys {α κ : Type} [DecidableEq κ] (key : α → κ) (f : α → EN) :
    ∀ (K : List κ) (l : List α), K.Nodup → (∀ x ∈ l, key x ∈ K) →
      (K.map (fun k => qsum ((l.filter (fun a => key a == k)).map f))).sum
        = qsum (l.map f) := by
  intro K
  induction K with
  | nil =>
    intro l _ hcov
    cases l with
    | nil => rfl
    | cons x t => exact absurd (hcov x (List.mem_cons_self x t)) (List.not_mem_nil _)
  | cons k K2 ih =>
    intro l hnd hcov
    rw [List.map_cons, List.sum_cons, List.nodup_cons] at *
    obtain ⟨hk, hnd2⟩ := hnd
    have hrest : (K2.map (fun k2 => qsum ((l.filter (fun a => key a == k2)).map f))).sum
        = (K2.map (fun k2 => qsum (((l.filter (fun a => key a != k)).filter
            (fun a => key a == k2)).map f))).sum := by
      congr 1
      apply List.map_congr_left
      intro k2 hk2
      have hk2ne : k2 ≠ k := fun he => hk (he ▸ hk2)
      have hfe : (l.filter (fun a => key a != k)).filter (fun a => key a == k2)
          = l.filter (fun a => key a == k2) := by
        rw [filter_comm2]
        apply List.filter_eq_self.mpr
        intro a ha
        rw [List.mem_filter] at ha
        rw [bne_iff_ne]
        intro hik
        rw [beq_iff_eq] at ha
        exact hk2ne (by rw [← ha.2, hik])
      rw [hfe]
    have hcov2 : ∀ x ∈ l.filter (fun a => key a != k), key x ∈ K2 := by
      intro x hx
      rw [List.mem_filter] at hx
      have hx1 := hcov x hx.1
      rw [List.mem_cons] at hx1
      rcases hx1 with h | h
      · exfalso
        have := hx.2
        rw [bne_iff_ne] at this
        exact this h
      · exact h
    rw [hrest, ih (l.filter (fun a => key a != k)) hnd2 hcov2]
    exact qsum_filter_add (fun a => key a == k) f l

/-- Summing a column of finite literals. -/
theorem qsum_map_num {κ : Type} (q : κ → ℚ) :
    ∀ (K : List κ), qsum (K.map (fun k => EN.num (q k))) = (K.map q).sum := by
  intro K
  induction K with
  | nil => rfl
  | cons k t ih =>
    rw [List.map_cons, qsum_cons, List.map_cons, List.sum_cons, ih]
    rfl

/-- Every V1 final-dataframe row takes its raw points from some vote. -/
theorem finalDfV1_pg_src {cont : List Contestant} {votes : List Vote} {r : FRow}
    (h : r ∈ V1.finalDf cont votes) :
    ∃ v ∈ votes, r.points_given = v.total_points := by
  unfold V1.finalDf at h
  rw [List.mem_map] at h
  obtain ⟨m, hm, hr⟩ := h
  unfold V1.merged at hm
  obtain ⟨v1, hv1, hfacts⟩ := mergeVC_row_src hm
  unfold V1.votesNorm at hv1
  rw [List.mem_map] at hv1
  obtain ⟨v, hv, hveq⟩ := hv1
  refine ⟨v, hv, ?_⟩
  have h1 : r.points_given = m.total_points := by rw [← hr]; rfl
  have h2 : m.total_points = v1.total_points := hfacts.2.2.2.2.2.2.2.1
  have h3 : v1.total_points = v.total_points := by rw [← hveq]
  rw [h1, h2, h3]

/-- C7: under the none weighting, the sum of weighted_points over the
emitted V1 edge list equals the sum of the raw points_given over the
surviving (filtered, non-self-loop) vote records, provided the input
points are finite or missing (no infinities). -/
theorem none_weighting_preserves_total (cont : List Contestant) (votes : List Vote)
    (cfg : Config) (hw : cfg.weighting_method = "No weights")
    (hfin : ∀ v ∈ votes, v.total_points.isInf = false) :
    gsum ((V1.edges cont votes cfg).map Edge.weighted_points)
      = gsum ((V1.dfFiltered cont votes cfg).map FRow.points_given) := by
  have hrow : ∀ r ∈ V1.dfFiltered cont votes cfg,
      r.weighted_points = some r.points_given ∧ r.points_given.isInf = false := by
    intro r hr
    have hrW : r ∈ V1.fW cont votes cfg := List.mem_of_mem_filter hr
    unfold V1.fW at hrW
    rw [hw, calc_none, List.mem_map] at hrW
    obtain ⟨r0, hr0, hre⟩ := hrW
    have hwp : r.weighted_points = some r.points_given := by rw [← hre]
    have hpg : r.points_given = r0.points_given := by rw [← hre]
    have hr0df : r0 ∈ V1.finalDf cont votes := by
      have h1 : r0 ∈ V1.fMin cont votes cfg := by
        unfold V1.fSel filterByIds at hr0
        exact List.mem_of_mem_filter hr0
      unfold V1.fMin at h1
      exact List.mem_of_mem_filter (List.mem_of_mem_filter h1)
    obtain ⟨v, hv, hpgv⟩ := finalDfV1_pg_src hr0df
    refine ⟨hwp, ?_⟩
    rw [hpg, hpgv]
    exact hfin v hv
  unfold V1.edges groupEdges
  rw [List.map_map]
  have hcomp : ∀ k : String × String,
      (Edge.weighted_points ∘ fun k2 : String × String =>
        ({ from_country := k2.1, to_country := k2.2,
           weighted_points := gsum (((V1.dfFiltered cont votes cfg).filter
             (fun r => r.from_country == k2.1 && r.to_country == k2.2)).map wpOf) } : Edge)) k
      = EN.num (qsum (((V1.dfFiltered cont votes cfg).filter
          (fun r => r.from_country == k.1 && r.to_country == k.2)).map FRow.points_given)) := by
    intro k
    show gsum (((V1.dfFiltered cont votes cfg).filter
        (fun r => r.from_country == k.1 && r.to_country == k.2)).map wpOf) = _
    have hmapeq : ((V1.dfFiltered cont votes cfg).filter
        (fun r => r.from_country == k.1 && r.to_country == k.2)).map wpOf
        = ((V1.dfFiltered cont votes cfg).filter
        (fun r => r.from_country == k.1 && r.to_country == k.2)).map FRow.points_given := by
      apply List.map_congr_left
      intro r hr
      have hwp := (hrow r (List.mem_of_mem_filter hr)).1
      unfold wpOf
      rw [hwp]
      rfl
    rw [hmapeq]
    apply gsum_eq_num
    intro x hx
    rw [List.mem_map] at hx
    obtain ⟨r, hr, hx⟩ := hx
    rw [← hx]
    exact (hrow r (List.mem_of_mem_filter hr)).2
  rw [List.map_congr_left (fun k _ => hcomp k)]
  have hA : ∀ x ∈ (dedupF ((V1.dfFiltered cont votes cfg).map
      (fun r => (r.from_country, r.to_country)))).map
        (fun k => EN.num (qsum (((V1.dfFiltered cont votes cfg).filter
          (fun r => r.from_country == k.1 && r.to_country == k.2)).map FRow.points_given))),
      x.isInf = false := by
    intro x hx
    rw [List.mem_map] at hx
    obtain ⟨k, _, hk⟩ := hx
    rw [← hk]
    rfl
  have hB : ∀ x ∈ (V1.dfFiltered cont votes cfg).map FRow.points_given,
      x.isInf = false := by
    intro x hx
    rw [List.mem_map] at hx
    obtain ⟨r, hr, hk⟩ := hx
    rw [← hk]
    exact (hrow r hr).2
  rw [gsum_eq_num _ hA, gsum_eq_num _ hB, qsum_map_num]
  congr 1
  have hcov : ∀ x ∈ V1.dfFiltered cont votes cfg,
      (fun r : FRow => (r.from_country, r.to_country)) x
        ∈ dedupF ((V1.dfFiltered cont votes cfg).map
            (fun r => (r.from_country, r.to_country))) := by
    intro x hx
    rw [mem_dedupF]
    exact List.mem_map_of_mem _ hx
  have hpart := qsum_partition_keys (fun r : FRow => (r.from_country, r.to_country))
      FRow.points_given
      (dedupF ((V1.dfFiltered cont votes cfg).map
        (fun r => (r.from_country, r.to_country))))
      (V1.dfFiltered cont votes cfg) (nodup_dedupF _) hcov
  rw [← hpart]
  apply congrArg List.sum
  apply List.map_congr_left
  intro k _
  apply congrArg qsum
  apply congrArg (List.map FRow.points_given)
  apply List.filter_congr
  intro r _
  rw [Bool.eq_iff_iff]
  simp only [Bool.and_eq_true, beq_iff_eq, Prod.ext_iff]
  show r.from_country = k.1 ∧ r.to_country = k.2
      ↔ decide ((r.from_country, r.to_country) = k) = true
  rw [decide_eq_true_eq, Prod.ext_iff]

/-! ### Claim C1 -/

/-- Blank the two round-points fields of a vote: two vote sets differ
only in points_sf and points_final exactly when their stripped forms
agree. -/
def stripVote (v : Vote) : Vote := { v with points_sf := EN.nan, points_final := EN.nan }

/-- The induced blanking on merged rows. -/
def stripM (m : MRow) : MRow :=
  { m with points_sf := EN.nan, points_final := EN.nan, total_points_overall := EN.nan }

/-- The induced blanking on final-dataframe rows: only the renamed
`total_points` column (the old `total_points_overall`) is affected. -/
def stripF (r : FRow) : FRow := { r with total_points := EN.nan }

/-- Blanking the points fields commutes with building one merged row. -/
theorem mkMRow_strip (v : Vote) (y : Option String) :
    mkMRow (stripVote v) y = stripM (mkMRow v y) := by
  unfold mkMRow stripVote stripM
  simp [ite_self]

/-- Blanking the points fields commutes with the vote-contestant merge. -/
theorem mergeVC_strip (cont : List Contestant) : ∀ (votes : List Vote),
    mergeVC (votes.map stripVote) cont = (mergeVC votes cont).map stripM := by
  intro votes
  induction votes with
  | nil => rfl
  | cons v t ih =>
    unfold mergeVC at *
    rw [List.map_cons, List.flatMap_cons, List.flatMap_cons, List.map_append, ih]
    congr 1
    have hsc : cont.filter (fun c => c.year == (stripVote v).year
        && c.to_country_id == (stripVote v).to_country_id)
        = cont.filter (fun c => c.year == v.year && c.to_country_id == v.to_country_id) := rfl
    rw [hsc]
    cases hfil : cont.filter (fun c => c.year == v.year && c.to_country_id == v.to_country_id) with
    | nil => simp [mkMRow_strip]
    | cons c cs => simp [mkMRow_strip]

/-- Blanking commutes with the round normalization map. -/
theorem norm_map_strip (votes : List Vote) :
    (votes.map stripVote).map (fun v => { v with round := normRound v.round })
      = (votes.map (fun v => { v with round := normRound v.round })).map stripVote := by
  rw [List.map_map, List.map_map]
  rfl

/-- A vote filter that ignores the points fields commutes with blanking. -/
theorem filter_strip (p : Vote → Bool) (hp : ∀ v, p (stripVote v) = p v) (l : List Vote) :
    (l.map stripVote).filter p = (l.filter p).map stripVote := by
  rw [filter_map_comm]
  congr 1
  exact List.filter_congr (fun v _ => hp v)

/-- V1 round normalization commutes with blanking. -/
theorem votesNormV1_strip (votes : List Vote) :
    V1.votesNorm (votes.map stripVote) = (V1.votesNorm votes).map stripVote := by
  unfold V1.votesNorm
  exact norm_map_strip votes

theorem uniqueYearsV1_strip (cont : List Contestant) (votes : List Vote) :
    V1.uniqueYears cont (votes.map stripVote) = V1.uniqueYears cont votes := by
  unfold V1.uniqueYears V1.merged
  rw [votesNormV1_strip, mergeVC_strip, List.map_map]
  rfl

theorem countryCountsV1_strip (cont : List Contestant) (votes : List Vote) :
    V1.countryCounts cont (votes.map stripVote) = V1.countryCounts cont votes := by
  unfold V1.countryCounts
  rw [uniqueYearsV1_strip]

theorem participationV1_strip (cont : List Contestant) (votes : List Vote) :
    V1.participationOf cont (votes.map stripVote) = V1.participationOf cont votes := by
  funext c
  unfold V1.participationOf
  rw [countryCountsV1_strip]

theorem finalDfV1_strip (cont : List Contestant) (votes : List Vote) :
    V1.finalDf cont (votes.map stripVote) = (V1.finalDf cont votes).map stripF := by
  unfold V1.finalDf V1.merged
  rw [votesNormV1_strip, mergeVC_strip, participationV1_strip, List.map_map, List.map_map]
  rfl

theorem nccMinV1_strip (cont : List Contestant) (votes : List Vote) (cfg : Config) :
    V1.nccMin cont (votes.map stripVote) cfg = V1.nccMin cont votes cfg := by
  unfold V1.nccMin
  rw [countryCountsV1_strip]

theorem fMinV1_strip (cont : List Contestant) (votes : List Vote) (cfg : Config) :
    V1.fMin cont (votes.map stripVote) cfg = (V1.fMin cont votes cfg).map stripF := by
  unfold V1.fMin
  rw [nccMinV1_strip, finalDfV1_strip, filter_map_comm, filter_map_comm]
  rfl

theorem fSelV1_strip (cont : List Contestant) (votes : List Vote) (cfg : Config) :
    V1.fSel cont (votes.map stripVote) cfg = (V1.fSel cont votes cfg).map stripF := by
  unfold V1.fSel filterByIds
  rw [nccMinV1_strip, fMinV1_strip, filter_map_comm]
  rfl

theorem nodesV1_strip (cont : List Contestant) (votes : List Vote) (cfg : Config) :
    V1.nodes cont (votes.map stripVote) cfg = V1.nodes cont votes cfg := by
  unfold V1.nodes
  rw [nccMinV1_strip]

/-- The none weighting commutes with blanking. -/
theorem calc_strip_none (l : List FRow) :
    calculate_weighted_votes (l.map stripF) "No weights"
      = (calculate_weighted_votes l "No weights").map stripF := by
  rw [calc_none, calc_none, List.map_map, List.map_map]
  rfl

/-- The by-participation weighting commutes with blanking. -/
theorem calc_strip_part (l : List FRow) :
    calculate_weighted_votes (l.map stripF) "Divide by participation count"
      = (calculate_weighted_votes l "Divide by participation count").map stripF := by
  rw [calc_by_participation, calc_by_participation, List.map_map, List.map_map]
  rfl

theorem dfFilteredV1_strip (cont : List Contestant) (votes : List Vote) (cfg : Config)
    (hw : cfg.weighting_method = "No weights"
        ∨ cfg.weighting_method = "Divide by participation count") :
    V1.dfFiltered cont (votes.map stripVote) cfg
      = (V1.dfFiltered cont votes cfg).map stripF := by
  unfold V1.dfFiltered V1.fW
  rw [fSelV1_strip]
  rcases hw with h | h <;> rw [h]
  · rw [calc_strip_none, filter_map_comm]
    rfl
  · rw [calc_strip_part, filter_map_comm]
    rfl

/-- Aggregation reads only the endpoints and the weighted column, which
blanking leaves intact. -/
theorem groupEdges_strip (l : List FRow) : groupEdges (l.map stripF) = groupEdges l := by
  unfold groupEdges
  have hkeys : (l.map stripF).map (fun r => (r.from_country, r.to_country))
      = l.map (fun r => (r.from_country, r.to_country)) := by
    rw [List.map_map]
    rfl
  rw [hkeys]
  apply List.map_congr_left
  intro k _
  have hg : ((l.map stripF).filter
        (fun r => r.from_country == k.1 && r.to_country == k.2)).map wpOf
      = (l.filter (fun r => r.from_country == k.1 && r.to_country == k.2)).map wpOf := by
    rw [filter_map_comm, List.map_map]
    rfl
  rw [hg]

theorem mainOutV1_strip (cont : List Contestant) (votes : List Vote) (cfg : Config)
    (hw : cfg.weighting_method = "No weights"
        ∨ cfg.weighting_method = "Divide by participation count") :
    V1.mainOut cont (votes.map stripVote) cfg = V1.mainOut cont votes cfg := by
  unfold V1.mainOut V1.edges
  rw [dfFilteredV1_strip cont votes cfg hw, groupEdges_strip, nodesV1_strip]

/-- The TOP-3 filter reads only the (blank-invariant) total_points. -/
theorem votesTop3_strip (l : List Vote) (cfg : Config) :
    V2.votesTop3 (l.map stripVote) cfg = (V2.votesTop3 l cfg).map stripVote := by
  unfold V2.votesTop3
  split_ifs
  · exact filter_strip (fun v => v.total_points.geQ 8) (fun v => rfl) l
  · rfl

/-- The FINAL-only filter reads only the (blank-invariant) round. -/
theorem votesFinal_strip (l : List Vote) (cfg : Config) :
    V2.votesFinal (l.map stripVote) cfg = (V2.votesFinal l cfg).map stripVote := by
  unfold V2.votesFinal
  split_ifs
  · exact filter_strip (fun v => v.round == "final") (fun v => rfl) l
  · rfl

theorem votesFilteredV2_strip (votes : List Vote) (cfg : Config) :
    V2.votesFiltered (votes.map stripVote) cfg
      = (V2.votesFiltered votes cfg).map stripVote := by
  unfold V2.votesFiltered V2.votesNorm
  rw [norm_map_strip, votesTop3_strip, votesFinal_strip]

theorem mergedV2_strip (cont : List Contestant) (votes : List Vote) (cfg : Config) :
    V2.merged cont (votes.map stripVote) cfg = (V2.merged cont votes cfg).map stripM := by
  unfold V2.merged
  rw [votesFilteredV2_strip, mergeVC_strip]

theorem uniqueYearsV2_strip (cont : List Contestant) (votes : List Vote) (cfg : Config) :
    V2.uniqueYears cont (votes.map stripVote) cfg = V2.uniqueYears cont votes cfg := by
  unfold V2.uniqueYears
  rw [mergedV2_strip, List.map_map]
  rfl

theorem countryCountsV2_strip (cont : List Contestant) (votes : List Vote) (cfg : Config) :
    V2.countryCounts cont (votes.map stripVote) cfg = V2.countryCounts cont votes cfg := by
  unfold V2.countryCounts
  rw [uniqueYearsV2_strip]

theorem nodesPreV2_strip (cont : List Contestant) (votes : List Vote) (cu : List Cultural)
    (cfg : Config) :
    V2.nodesPre cont (votes.map stripVote) cu cfg = V2.nodesPre cont votes cu cfg := by
  unfold V2.nodesPre
  rw [countryCountsV2_strip]

theorem participationV2_strip (cont : List Contestant) (votes : List Vote)
    (cu : List Cultural) (cfg : Config) :
    V2.participationOf cont (votes.map stripVote) cu cfg
      = V2.participationOf cont votes cu cfg := by
  funext c
  unfold V2.participationOf
  rw [nodesPreV2_strip]

theorem finalDfV2_strip (cont : List Contestant) (votes : List Vote) (cu : List Cultural)
    (cfg : Config) :
    V2.finalDf cont (votes.map stripVote) cu cfg
      = (V2.finalDf cont votes cu cfg).map stripF := by
  unfold V2.finalDf
  rw [mergedV2_strip, participationV2_strip, List.map_map, List.map_map]
  rfl

theorem nccMinV2_strip (cont : List Contestant) (votes : List Vote) (cu : List Cultural)
    (cfg : Config) :
    V2.nccMin cont (votes.map stripVote) cu cfg = V2.nccMin cont votes cu cfg := by
  unfold V2.nccMin
  rw [nodesPreV2_strip]

theorem fMinV2_strip (cont : List Contestant) (votes : List Vote) (cu : List Cultural)
    (cfg : Config) :
    V2.fMin cont (votes.map stripVote) cu cfg = (V2.fMin cont votes cu cfg).map stripF := by
  unfold V2.fMin
  rw [nccMinV2_strip, finalDfV2_strip, filter_map_comm, filter_map_comm]
  rfl

theorem fSelV2_strip (cont : List Contestant) (votes : List Vote) (cu : List Cultural)
    (cfg : Config) :
    V2.fSel cont (votes.map stripVote) cu cfg = (V2.fSel cont votes cu cfg).map stripF := by
  unfold V2.fSel filterByIds
  rw [nccMinV2_strip, fMinV2_strip, filter_map_comm]
  rfl

theorem nodesV2_strip (cont : List Contestant) (votes : List Vote) (cu : List Cultural)
    (cfg : Config) :
    V2.nodes cont (votes.map stripVote) cu cfg = V2.nodes cont votes cu cfg := by
  unfold V2.nodes
  rw [nccMinV2_strip]

theorem dfFilteredV2_strip (cont : List Contestant) (votes : List Vote) (cu : List Cultural)
    (cfg : Config)
    (hw : cfg.weighting_method = "No weights"
        ∨ cfg.weighting_method = "Divide by participation count") :
    V2.dfFiltered cont (votes.map stripVote) cu cfg
      = (V2.dfFiltered cont votes cu cfg).map stripF := by
  unfold V2.dfFiltered V2.fW
  rw [fSelV2_strip]
  rcases hw with h | h <;> rw [h]
  · rw [calc_strip_none, filter_map_comm]
    rfl
  · rw [calc_strip_part, filter_map_comm]
    rfl

theorem mainOutV2_strip (cont : List Contestant) (votes : List Vote) (cu : List Cultural)
    (cfg : Config)
    (hw : cfg.weighting_method = "No weights"
        ∨ cfg.weighting_method = "Divide by participation count") :
    V2.mainOut cont (votes.map stripVote) cu cfg = V2.mainOut cont votes cu cfg := by
  unfold V2.mainOut V2.edgesDisp V2.downloadEdges V2.fW
  rw [dfFilteredV2_strip cont votes cu cfg hw, groupEdges_strip, nodesV2_strip, fSelV2_strip]
  rcases hw with h | h <;> rw [h]
  · rw [calc_strip_none, List.map_map]
    rfl
  · rw [calc_strip_part, List.map_map]
    rfl

/-- Concrete contestants for C1. -/
def exCont1 : List Contestant :=
  [{ year := 2021, to_country_id := "de", to_country := "Germany" },
   { year := 2021, to_country_id := "fr", to_country := "France" }]

/-- Concrete votes for C1, first variant of the points fields. -/
def exVotes1a : List Vote :=
  [{ year := 2021, round := "final", from_country_id := "fr", to_country_id := "de",
     to_country := "de", points_sf := EN.nan, points_final := EN.num 12,
     total_points := EN.num 10 },
   { year := 2021, round := "final", from_country_id := "de", to_country_id := "fr",
     to_country := "fr", points_sf := EN.nan, points_final := EN.num 7,
     total_points := EN.num 5 }]

/-- The same votes with only points_final changed (12 to 3). -/
def exVotes1b : List Vote :=
  [{ year := 2021, round := "final", from_country_id := "fr", to_country_id := "de",
     to_country := "de", points_sf := EN.nan, points_final := EN.num 3,
     total_points := EN.num 10 },
   { year := 2021, round := "final", from_country_id := "de", to_country_id := "fr",
     to_country := "fr", points_sf := EN.nan, points_final := EN.num 7,
     total_points := EN.num 5 }]

/-- A by-total configuration for the C1 counterexample. -/
def exCfg1T : Config :=
  { weighting_method := "Divide by total points", min_participations := 1,
    selected_countries := ["Germany", "France"], top3_only := false, final_only := false }

/-- A none-weighting configuration for the C1 witness. -/
def exCfg1N : Config :=
  { weighting_method := "No weights", min_participations := 1,
    selected_countries := ["Germany", "France"], top3_only := false, final_only := false }

/-- C1 counterexample: two inputs that differ only in points_final give
different V1 outputs under the by-total configuration, because the
points_final/points_sf-derived column is the by-total divisor. -/
theorem points_fields_affect_by_total_output :
    exVotes1a.map stripVote = exVotes1b.map stripVote ∧
    V1.mainOut exCont1 exVotes1a exCfg1T ≠ V1.mainOut exCont1 exVotes1b exCfg1T := by
  exact ⟨by decide, by decide⟩

/-- C1 (amended): for input record sets that differ only in the points_sf
and points_final fields of the vote records, and for every configuration
whose weighting method does not divide by the points_sf/points_final
derived column — that is, 'No weights' or 'Divide by participation
count' — both pipelines produce identical final edge and node lists
(displayed and downloadable alike). -/
theorem points_fields_no_effect_without_total_divisor (cont : List Contestant)
    (v1 v2 : List Vote) (cu : List Cultural) (cfg : Config)
    (hsame : v1.map stripVote = v2.map stripVote)
    (hw : cfg.weighting_method = "No weights"
        ∨ cfg.weighting_method = "Divide by participation count") :
    V1.mainOut cont v1 cfg = V1.mainOut cont v2 cfg ∧
    V2.mainOut cont v1 cu cfg = V2.mainOut cont v2 cu cfg := by
  constructor
  · rw [← mainOutV1_strip cont v1 cfg hw, ← mainOutV1_strip cont v2 cfg hw, hsame]
  · rw [← mainOutV2_strip cont v1 cu cfg hw, ← mainOutV2_strip cont v2 cu cfg hw, hsame]

/-- Witness for the amended C1 theorem at the concrete input pair. -/
theorem points_fields_no_effect_witness :
    V1.mainOut exCont1 exVotes1a exCfg1N = V1.mainOut exCont1 exVotes1b exCfg1N ∧
    V2.mainOut exCont1 exVotes1a [] exCfg1N = V2.mainOut exCont1 exVotes1b [] exCfg1N :=
  points_fields_no_effect_without_total_divisor exCont1 exVotes1a exVotes1b [] exCfg1N
    (by decide) (Or.inl rfl)

/-- Concrete contestants for the C7 witness. -/
def exCont7 : List Contestant :=
  [{ year := 2021, to_country_id := "de", to_country := "Germany" },
   { year := 2021, to_country_id := "fr", to_country := "France" }]

/-- Concrete votes for the C7 witness: mutual votes survive the filters. -/
def exVotes7 : List Vote :=
  [{ year := 2021, round := "final", from_country_id := "fr", to_country_id := "de",
     to_country := "de", points_sf := EN.nan, points_final := EN.num 12,
     total_points := EN.num 10 },
   { year := 2021, round := "final", from_country_id := "de", to_country_id := "fr",
     to_country := "fr", points_sf := EN.nan, points_final := EN.num 7,
     total_points := EN.num 5 }]

/-- Concrete none-weighting configuration for the C7 witness. -/
def exCfg7 : Config :=
  { weighting_method := "No weights", min_participations := 1,
    selected_countries := ["Germany", "France"], top3_only := false, final_only := false }

/-- Witness for C7 at the concrete input. -/
theorem none_weighting_preserves_total_witness :
    gsum ((V1.edges exCont7 exVotes7 exCfg7).map Edge.weighted_points)
      = gsum ((V1.dfFiltered exCont7 exVotes7 exCfg7).map FRow.points_given) :=
  none_weighting_preserves_total exCont7 exVotes7 exCfg7 rfl (by decide)
